import Mathlib

/-!
Verification development for the ABF vector-valued polynomial basis evaluator
(`PolynomialsABF<dim>` from `deal.II/base/source/polynomials_abf.cc`).

The component under study owns an anisotropic tensor-product scalar polynomial
space and evaluates a vector-valued basis by rotating coordinates across `dim`
copies of that scalar space.  The scalar collaborators
(`Polynomials::Polynomial`, `Polynomials::LagrangeEquidistant`,
`Polynomials::Legendre`, `AnisotropicPolynomials`) are not part of the
excerpted source; they are modelled from the specification and marked as such.
Numbers are modelled as rationals; C++ `std::vector` subscript writes that
would be out of range (undefined behaviour) are modelled as an explicit
`outOfBounds` failure.
-/

/-- One-dimensional polynomial, as its little-endian coefficient list
(coefficient of `x^i` at position `i`).  Modelled from the spec: the 1-D
polynomial families are ordered sequences of univariate polynomials that can
be evaluated and differentiated. -/
abbrev QPoly := List ℚ

/-- Value of a polynomial at a point (Horner evaluation). -/
def QPoly.value (p : QPoly) (x : ℚ) : ℚ :=
  p.foldr (fun c acc => c + x * acc) 0

/-- Formal derivative of a coefficient list. -/
def QPoly.derivative : QPoly → QPoly
  | [] => []
  | _ :: cs => List.zipWith (fun c n => ((n : ℚ) + 1) * c) cs (List.range cs.length)

/-- Iterated derivative. -/
def QPoly.derivIter : Nat → QPoly → QPoly
  | 0, p => p
  | m + 1, p => QPoly.derivIter m p.derivative

/-- Multiply a polynomial by the linear factor `(x - r)`. -/
def QPoly.mulLinear (r : ℚ) (p : QPoly) : QPoly :=
  List.zipWith (· + ·) (0 :: p) (p.map (fun c => -r * c) ++ [0])

/-- Coefficient-wise sum of two polynomials (of the same length). -/
def QPoly.add (p q : QPoly) : QPoly := List.zipWith (· + ·) p q

/-- Scale a polynomial by a constant. -/
def QPoly.scale (a : ℚ) (p : QPoly) : QPoly := p.map (a * ·)

/-- Multiply a polynomial by the affine factor `(a + b*x)`. -/
def QPoly.mulAffine (a b : ℚ) (p : QPoly) : QPoly :=
  List.zipWith (· + ·) (p.map (a * ·) ++ [0]) (0 :: p.map (b * ·))

/-- Modelled from the spec: the `i`-th member of the complete
Lagrange-equidistant basis of degree `n` (missing collaborator
`Polynomials::LagrangeEquidistant`).  It interpolates `1` at the node `i/n`
and `0` at the other equidistant nodes `j/n`, `j ∈ [0,n]`, of `[0,1]`. -/
def lagrangePoly (n i : Nat) : QPoly :=
  let xi : ℚ := (i : ℚ) / (n : ℚ)
  let others : List ℚ :=
    (((List.range (n + 1)).filter (fun j => j ≠ i)).map (fun j => (j : ℚ) / (n : ℚ)))
  let numer : QPoly := others.foldl (fun p r => QPoly.mulLinear r p) [1]
  let denom : ℚ := others.foldl (fun acc r => acc * (xi - r)) 1
  numer.map (fun c => c / denom)

namespace LagrangeEquidistant

/-- Modelled from the spec: `Polynomials::LagrangeEquidistant::generate_complete_basis`
(missing collaborator).  The complete Lagrange basis of degree `n` on the
equidistant nodes of `[0,1]`; for `n = 0` it is the single constant-one
polynomial. -/
def generate_complete_basis (n : Nat) : List QPoly :=
  if n = 0 then [[1]] else (List.range (n + 1)).map (lagrangePoly n)

end LagrangeEquidistant

/-- Modelled from the spec: the degree-`m` shifted Legendre polynomial on
`[0,1]` (missing collaborator `Polynomials::Legendre`), via the Bonnet
recurrence; only the degree-0 member (the constant function `1`) is ever
consumed by this component. -/
def legendreP : Nat → QPoly
  | 0 => [1]
  | 1 => [-1, 2]
  | m + 2 =>
    QPoly.scale (1 / ((m : ℚ) + 2))
      (QPoly.add
        (QPoly.mulAffine (-(2 * (m : ℚ) + 3)) (2 * (2 * (m : ℚ) + 3)) (legendreP (m + 1)))
        (QPoly.scale (-((m : ℚ) + 1)) (legendreP m ++ [0, 0])))

namespace Legendre

/-- Modelled from the spec: `Polynomials::Legendre::generate_complete_basis`
(missing collaborator), the shifted Legendre family up to degree `n`. -/
def generate_complete_basis (n : Nat) : List QPoly :=
  (List.range (n + 1)).map legendreP

end Legendre

/-- Modelled from the spec: the missing collaborator
`AnisotropicPolynomials<dim>` — an anisotropic tensor-product scalar space
built from one 1-D polynomial family per coordinate direction. -/
structure AnisotropicPolynomials where
  pols : List (List QPoly)
deriving DecidableEq

/-- Modelled from the spec: the basis size `n()` of the anisotropic space,
the product of the per-direction family sizes. -/
def AnisotropicPolynomials.n (sp : AnisotropicPolynomials) : Nat :=
  (sp.pols.map List.length).foldl (· * ·) 1

/-- Mixed-radix digits of a tensor-product index: the first direction runs
fastest. -/
def mixedDigits : List Nat → Nat → List Nat
  | [], _ => []
  | m :: rest, i => (i % m) :: mixedDigits rest (i / m)

/-- Modelled from the spec: derivative of the `i`-th tensor-product basis
function, with derivative order `ord e` in direction `e`, at point `p`. -/
def AnisotropicPolynomials.basisDeriv (sp : AnisotropicPolynomials)
    (ord : Nat → Nat) (i : Nat) (p : List ℚ) : ℚ :=
  let digits := mixedDigits (sp.pols.map List.length) i
  (List.range sp.pols.length).foldl
    (fun acc e =>
      acc * QPoly.value (QPoly.derivIter (ord e) ((sp.pols.getD e []).getD (digits.getD e 0) []))
        (p.getD e 0))
    1

/-- Modelled from the spec: value of the `i`-th tensor-product basis function. -/
def AnisotropicPolynomials.basisValue (sp : AnisotropicPolynomials) (i : Nat) (p : List ℚ) : ℚ :=
  sp.basisDeriv (fun _ => 0) i p

/-- Modelled from the spec: `d1`-th gradient component of the `i`-th basis
function. -/
def AnisotropicPolynomials.basisGrad (sp : AnisotropicPolynomials) (i d1 : Nat) (p : List ℚ) : ℚ :=
  sp.basisDeriv (fun e => if e = d1 then 1 else 0) i p

/-- Modelled from the spec: `(d1,d2)` Hessian entry of the `i`-th basis
function. -/
def AnisotropicPolynomials.basisHess (sp : AnisotropicPolynomials) (i d1 d2 : Nat) (p : List ℚ) : ℚ :=
  sp.basisDeriv (fun e => (if e = d1 then 1 else 0) + (if e = d2 then 1 else 0)) i p

/-- Modelled from the spec: `AnisotropicPolynomials::compute` filling the
value scratch buffer — it overwrites every entry of the supplied buffer, so
only the buffer's length (0 or `n`) matters. -/
def fillValues (buf : List ℚ) (sp : AnisotropicPolynomials) (p : List ℚ) : List ℚ :=
  (List.range buf.length).map (fun i => sp.basisValue i p)

/-- Modelled from the spec: gradient scratch buffer fill. -/
def fillGrads (buf : List (List ℚ)) (sp : AnisotropicPolynomials) (dim : Nat) (p : List ℚ) :
    List (List ℚ) :=
  (List.range buf.length).map (fun i => (List.range dim).map (fun d1 => sp.basisGrad i d1 p))

/-- Modelled from the spec: Hessian scratch buffer fill. -/
def fillHessians (buf : List (List (List ℚ))) (sp : AnisotropicPolynomials) (dim : Nat)
    (p : List ℚ) : List (List (List ℚ)) :=
  (List.range buf.length).map
    (fun i => (List.range dim).map (fun d1 => (List.range dim).map (fun d2 => sp.basisHess i d1 d2 p)))

/-- The failure modes of the component: `dimensionMismatch` for the
`ExcDimensionMismatch` assertions, `unsupportedDimension` for the
`ExcNotImplemented` fall-through of `compute_n_pols`, and `outOfBounds` for a
`std::vector` subscript write past the end (undefined behaviour in C++,
surfaced as an explicit failure in this model). -/
inductive ABFError where
  | dimensionMismatch : ABFError
  | unsupportedDimension : ABFError
  | outOfBounds : ABFError
deriving DecidableEq

/-- `PolynomialsABF<dim>::compute_n_pols(k)`, with the template parameter
`dim` made explicit. -/
def compute_n_pols (dim k : Nat) : Except ABFError Nat :=
  if dim = 1 then .ok (k + 1)
  else if dim = 2 then .ok (2 * (k + 1) * (k + 3))
  else if dim = 3 then .ok (3 * (k + 1) * (k + 1) * (k + 2))
  else .error .unsupportedDimension

/-- The `PolynomialsABF<dim>` object: degree, stored basis size and the owned
anisotropic scalar space. -/
structure PolynomialsABF where
  dim : Nat
  my_degree : Nat
  n_pols : Nat
  polynomial_space : AnisotropicPolynomials
deriving DecidableEq

/-- `PolynomialsABF<dim>::PolynomialsABF(k)`: stores `compute_n_pols(k)`,
builds the direction-0 family as the Lagrange-equidistant basis of degree
`k+2` and all remaining directions as the Legendre degree-0 basis when
`k = 0`, otherwise the Lagrange-equidistant basis of degree `k`. -/
def mkPolynomialsABF (dim k : Nat) : Except ABFError PolynomialsABF :=
  match compute_n_pols dim k with
  | .error e => .error e
  | .ok np =>
    .ok
      { dim := dim
        my_degree := k
        n_pols := np
        polynomial_space :=
          ⟨LagrangeEquidistant.generate_complete_basis (k + 2) ::
            (List.range (dim - 1)).map
              (fun _ =>
                if k = 0 then Legendre.generate_complete_basis 0
                else LagrangeEquidistant.generate_complete_basis k)⟩ }

/-- `std::vector::resize` on a scratch buffer: keep the first `m` entries,
pad with `z`. -/
def vectorResize {α : Type} (l : List α) (m : Nat) (z : α) : List α :=
  l.take m ++ List.replicate (m - l.length) z

/-- The rotated point of the evaluation loop: `p (c) = unit_point ((c+d) % dim)`. -/
def rotatePoint (dim : Nat) (pt : List ℚ) (d : Nat) : List ℚ :=
  (List.range dim).map (fun c => pt.getD ((c + d) % dim) 0)

/-- One scatter loop of `PolynomialsABF<dim>::compute`: for each scratch item
`sc.get t`, transform the output entry at index `i + t + off` by `F`; a write
past the end of the output container fails (C++ out-of-bounds subscript). -/
def scatterEntries {σ β : Type} (F : σ → β → β) (zb : β) (off : Nat) :
    Nat → List σ → List β → Option (List β)
  | _, [], out => some out
  | i, s :: rest, out =>
    if i + off < out.length then
      scatterEntries F zb off (i + 1) rest (out.set (i + off) (F s (out.getD (i + off) zb)))
    else none

/-- The inner double loop `grads[i+d*n_sub][d][(d1+d)%dim] = p_grads[i][d1]`
acting on one `Tensor<2,dim>` entry. -/
def gradEntryWrite (dim d : Nat) (srow : List ℚ) (entry : List (List ℚ)) : List (List ℚ) :=
  (List.range dim).foldl
    (fun e d1 => e.set d ((e.getD d []).set ((d1 + d) % dim) (srow.getD d1 0)))
    entry

/-- The inner triple loop
`grad_grads[i+d*n_sub][d][(d1+d)%dim][(d2+d)%dim] = p_grad_grads[i][d1][d2]`
acting on one `Tensor<3,dim>` entry. -/
def hessEntryWrite (dim d : Nat) (sh : List (List ℚ)) (entry : List (List (List ℚ))) :
    List (List (List ℚ)) :=
  (List.range dim).foldl
    (fun e d1 =>
      (List.range dim).foldl
        (fun e2 d2 =>
          e2.set d
            ((e2.getD d []).set ((d1 + d) % dim)
              (((e2.getD d []).getD ((d1 + d) % dim) []).set ((d2 + d) % dim)
                ((sh.getD d1 []).getD d2 0))))
        e)
    entry

/-- The outer direction loop of `PolynomialsABF<dim>::compute`: for each
direction `d`, rotate the point, evaluate the scalar space into the scratch
buffers, and scatter values / gradients / Hessians into block `d` of the
output containers. -/
def computeLoop (sp : AnisotropicPolynomials) (dim n_sub : Nat) (pt : List ℚ) :
    Nat → Nat → List ℚ × List (List ℚ) × List (List (List ℚ)) →
    List (List ℚ) × List (List (List ℚ)) × List (List (List (List ℚ))) →
    Option (List (List ℚ) × List (List (List ℚ)) × List (List (List (List ℚ))))
  | 0, _, _, out => some out
  | rem + 1, d, scr, (v, g, h) =>
    let p := rotatePoint dim pt d
    let pv := fillValues scr.1 sp p
    let pg := fillGrads scr.2.1 sp dim p
    let ph := fillHessians scr.2.2 sp dim p
    (scatterEntries (fun x entry => entry.set d x) [] (d * n_sub) 0 pv v).bind fun v1 =>
      (scatterEntries (gradEntryWrite dim d) [] (d * n_sub) 0 pg g).bind fun g1 =>
        (scatterEntries (hessEntryWrite dim d) [] (d * n_sub) 0 ph h).bind fun h1 =>
          computeLoop sp dim n_sub pt rem (d + 1) (pv, pg, ph) (v1, g1, h1)

/-- `PolynomialsABF<dim>::compute(unit_point, values, grads, grad_grads)`.
The three `Assert` size checks come first; the scratch buffers (the mutable
members `p_values`, `p_grads`, `p_grad_grads`, passed here explicitly as
`scratch`) are resized to 0 or `n_sub`, and the direction loop scatters the
rotated scalar evaluations into the output containers. -/
def PolynomialsABF.compute (abf : PolynomialsABF) (unit_point : List ℚ)
    (values : List (List ℚ)) (grads : List (List (List ℚ)))
    (grad_grads : List (List (List (List ℚ))))
    (scratch : List ℚ × List (List ℚ) × List (List (List ℚ))) :
    Except ABFError
      (List (List ℚ) × List (List (List ℚ)) × List (List (List (List ℚ)))) :=
  if ¬(values.length = abf.n_pols ∨ values.length = 0) then .error .dimensionMismatch
  else if ¬(grads.length = abf.n_pols ∨ grads.length = 0) then .error .dimensionMismatch
  else if ¬(grad_grads.length = abf.n_pols ∨ grad_grads.length = 0) then .error .dimensionMismatch
  else
    let n_sub := abf.polynomial_space.n
    let scr :=
      (vectorResize scratch.1 (if values.length = 0 then 0 else n_sub) 0,
       vectorResize scratch.2.1 (if grads.length = 0 then 0 else n_sub) [],
       vectorResize scratch.2.2 (if grad_grads.length = 0 then 0 else n_sub) [])
    match computeLoop abf.polynomial_space abf.dim n_sub unit_point abf.dim 0 scr
        (values, grads, grad_grads) with
    | some out => .ok out
    | none => .error .outOfBounds

/-- Extract the constructed object from a successful constructor call. -/
def okABF : Except ABFError PolynomialsABF → PolynomialsABF
  | .ok a => a
  | .error _ => ⟨0, 0, 0, ⟨[]⟩⟩

/-- Extract the values output of a successful `compute` call. -/
def okV :
    Except ABFError (List (List ℚ) × List (List (List ℚ)) × List (List (List (List ℚ)))) →
    List (List ℚ)
  | .ok t => t.1
  | .error _ => []

/-- Extract the gradients output of a successful `compute` call. -/
def okG :
    Except ABFError (List (List ℚ) × List (List (List ℚ)) × List (List (List (List ℚ)))) →
    List (List (List ℚ))
  | .ok t => t.2.1
  | .error _ => []

/-- Extract the second-gradients output of a successful `compute` call. -/
def okH :
    Except ABFError (List (List ℚ) × List (List (List ℚ)) × List (List (List (List ℚ)))) →
    List (List (List (List ℚ)))
  | .ok t => t.2.2
  | .error _ => []

/-- A zero-initialized container of `n` vector entries of size `dim`. -/
def zeroT1 (n dim : Nat) : List (List ℚ) :=
  List.replicate n (List.replicate dim 0)

/-- A zero-initialized container of `n` matrix entries of size `dim × dim`. -/
def zeroT2 (n dim : Nat) : List (List (List ℚ)) :=
  List.replicate n (List.replicate dim (List.replicate dim 0))

/-- A zero-initialized container of `n` third-order tensor entries. -/
def zeroT3 (n dim : Nat) : List (List (List (List ℚ))) :=
  List.replicate n (List.replicate dim (List.replicate dim (List.replicate dim 0)))

/-- Extract the output triple of a successful `compute` call. -/
def okOut :
    Except ABFError (List (List ℚ) × List (List (List ℚ)) × List (List (List (List ℚ)))) →
    List (List ℚ) × List (List (List ℚ)) × List (List (List (List ℚ)))
  | .ok t => t
  | .error _ => ([], [], [])

/-- The `PolynomialsABF<2>` instance of degree 1, used by the rotation-symmetry
scenario. -/
def abf21 : PolynomialsABF := okABF (mkPolynomialsABF 2 1)

/-- Full evaluation of the degree-1, dim-2 ABF basis at `(a, b)` into
zero-initialized containers. -/
def abf21eval (a b : ℚ) :
    Except ABFError (List (List ℚ) × List (List (List ℚ)) × List (List (List (List ℚ)))) :=
  abf21.compute [a, b] (zeroT1 16 2) (zeroT2 16 2) (zeroT3 16 2) ([], [], [])

/- The Batteries rational arithmetic operations are irreducible by default,
which blocks the `decide` tactic evaluator on concrete instances; reduction is
re-enabled here (the kernel ignores reducibility annotations, so proofs are
unaffected). -/
set_option allowUnsafeReducibility true in
attribute [semireducible] Rat.add Rat.mul Rat.sub Rat.inv Rat.ofScientific Nat.instDecidableCoprime

lemma getD_set_self {α : Type} (l : List α) (i : Nat) (x z : α) (h : i < l.length) :
    (l.set i x).getD i z = x := by
  rw [List.getD_eq_getElem?_getD, List.getElem?_set_self]
  · simp
  · exact h

lemma getD_set_other {α : Type} (l : List α) (i j : Nat) (x z : α) (h : i ≠ j) :
    (l.set i x).getD j z = l.getD j z := by
  rw [List.getD_eq_getElem?_getD, List.getElem?_set_ne h, ← List.getD_eq_getElem?_getD]

lemma set_getD_self {α : Type} (l : List α) (i : Nat) (z : α) (h : i < l.length) :
    l.set i (l.getD i z) = l := by
  apply List.ext_getElem?
  intro j
  by_cases hij : i = j
  · subst hij
    rw [List.getElem?_set_self]
    · rw [List.getD_eq_getElem?_getD, List.getElem?_eq_getElem h]
      simp
    · exact h
  · exact List.getElem?_set_ne hij

lemma getD_range_map {α : Type} (n : Nat) (f : Nat → α) (t : Nat) (z : α) (h : t < n) :
    ((List.range n).map f).getD t z = f t := by
  rw [List.getD_eq_getElem?_getD, List.getElem?_map, List.getElem?_range h]
  simp

lemma getD_mem {α : Type} (l : List α) (j : Nat) (z : α) (h : j < l.length) :
    l.getD j z ∈ l := by
  rw [List.getD_eq_getElem?_getD, List.getElem?_eq_getElem h]
  exact List.getElem_mem h

lemma foldl_set_length {α β : Type} (p : β → Nat) (g : β → List α → α) (idxs : List β)
    (r0 : List α) :
    (idxs.foldl (fun r t => r.set (p t) (g t r)) r0).length = r0.length := by
  induction idxs generalizing r0 with
  | nil => rfl
  | cons a rest ih => rw [List.foldl_cons, ih, List.length_set]

lemma foldl_set_getD_ne {α β : Type} (p : β → Nat) (g : β → List α → α) (idxs : List β)
    (r0 : List α) (c : Nat) (z : α) (hc : ∀ t ∈ idxs, p t ≠ c) :
    (idxs.foldl (fun r t => r.set (p t) (g t r)) r0).getD c z = r0.getD c z := by
  induction idxs generalizing r0 with
  | nil => rfl
  | cons a rest ih =>
    rw [List.foldl_cons, ih _ (fun t ht => hc t (List.mem_cons_of_mem a ht))]
    exact getD_set_other _ _ _ _ _ (hc a (List.mem_cons_self a rest))

lemma foldl_set_const {α β : Type} (a : Nat) (g : β → α → α) (idxs : List β) (r0 : List α)
    (z : α) (h : a < r0.length) :
    idxs.foldl (fun r t => r.set a (g t (r.getD a z))) r0
      = r0.set a (idxs.foldl (fun x t => g t x) (r0.getD a z)) := by
  induction idxs generalizing r0 with
  | nil => exact (set_getD_self r0 a z h).symm
  | cons b rest ih =>
    rw [List.foldl_cons, List.foldl_cons,
      ih (r0.set a (g b (r0.getD a z))) (by rw [List.length_set]; exact h),
      getD_set_self _ _ _ _ h, List.set_set]

lemma foldl_set_getD_distinct {α : Type} (p : Nat → Nat) (g : Nat → α → α) (idxs : List Nat)
    (r0 : List α) (z : α) (hnd : (idxs.map p).Nodup) (t : Nat) (ht : t ∈ idxs)
    (hlt : p t < r0.length) :
    (idxs.foldl (fun r u => r.set (p u) (g u (r.getD (p u) z))) r0).getD (p t) z
      = g t (r0.getD (p t) z) := by
  induction idxs generalizing r0 with
  | nil => cases ht
  | cons a rest ih =>
    rw [List.map_cons, List.nodup_cons] at hnd
    rw [List.foldl_cons]
    rcases List.mem_cons.mp ht with hta | hta
    · subst hta
      have hrest : ∀ u ∈ rest, p u ≠ p t := by
        intro u hu he
        exact hnd.1 (he ▸ List.mem_map_of_mem p hu)
      rw [foldl_set_getD_ne p (fun u r => g u (r.getD (p u) z)) rest _ _ _ hrest]
      exact getD_set_self _ _ _ _ hlt
    · have hne : p a ≠ p t := by
        intro he
        exact hnd.1 (he ▸ List.mem_map_of_mem p hta)
      rw [ih _ hnd.2 hta (by rw [List.length_set]; exact hlt)]
      rw [getD_set_other _ _ _ _ _ hne]

lemma foldl_congr_inv {α β : Type} (P : α → Prop) (f f' : α → β → α) (l : List β) (a0 : α)
    (h0 : P a0) (hs : ∀ a x, P a → x ∈ l → f a x = f' a x ∧ P (f a x)) :
    l.foldl f a0 = l.foldl f' a0 := by
  induction l generalizing a0 with
  | nil => rfl
  | cons b rest ih =>
    have hb := hs a0 b h0 (List.mem_cons_self b rest)
    rw [List.foldl_cons, List.foldl_cons, hb.1]
    exact ih (f' a0 b) (hb.1 ▸ hb.2) (fun a x ha hx => hs a x ha (List.mem_cons_of_mem b hx))

lemma nodup_rot_mod (dim d : Nat) :
    ((List.range dim).map (fun q => (q + d) % dim)).Nodup := by
  apply List.Nodup.map_on _ (List.nodup_range dim)
  intro a ha b hb hab
  have ha' : a < dim := List.mem_range.mp ha
  have hb' : b < dim := List.mem_range.mp hb
  have h2 : a % dim = b % dim := Nat.ModEq.add_right_cancel' d hab
  rwa [Nat.mod_eq_of_lt ha', Nat.mod_eq_of_lt hb'] at h2

lemma rot_mod_lt (dim q d : Nat) (hq : q < dim) : (q + d) % dim < dim :=
  Nat.mod_lt _ (Nat.lt_of_le_of_lt (Nat.zero_le q) hq)

lemma block_lt (e t ns dimv : Nat) (he : e < dimv) (ht : t < ns) :
    e * ns + t < dimv * ns := by
  have h1 : e * ns + t < (e + 1) * ns := by
    rw [Nat.add_mul, Nat.one_mul]
    omega
  have h2 : (e + 1) * ns ≤ dimv * ns := Nat.mul_le_mul_right ns he
  omega

lemma block_div (e t ns : Nat) (hns : 0 < ns) (ht : t < ns) : (e * ns + t) / ns = e := by
  rw [Nat.mul_comm e ns, Nat.mul_add_div hns, Nat.div_eq_of_lt ht]
  omega

lemma vectorResize_length {α : Type} (l : List α) (m : Nat) (z : α) :
    (vectorResize l m z).length = m := by
  rw [vectorResize, List.length_append, List.length_take, List.length_replicate]
  omega

lemma scatterEntries_length {σ β : Type} (F : σ → β → β) (zb : β) (off : Nat) :
    ∀ (sc : List σ) (i : Nat) (out out' : List β),
      scatterEntries F zb off i sc out = some out' → out'.length = out.length := by
  intro sc
  induction sc with
  | nil =>
    intro i out out' h
    rw [scatterEntries] at h
    cases h
    rfl
  | cons s rest ih =>
    intro i out out' h
    rw [scatterEntries] at h
    split at h
    · rw [ih _ _ _ h, List.length_set]
    · cases h

lemma scatterEntries_bound {σ β : Type} (F : σ → β → β) (zb : β) (off : Nat) :
    ∀ (sc : List σ) (i : Nat) (out out' : List β),
      scatterEntries F zb off i sc out = some out' → sc ≠ [] →
      i + off + sc.length ≤ out.length := by
  intro sc
  induction sc with
  | nil =>
    intro i out out' _ hne
    exact absurd rfl hne
  | cons s rest ih =>
    intro i out out' h _
    rw [scatterEntries] at h
    split at h
    · next hin =>
      rcases List.eq_nil_or_concat rest with hr | hr
      · subst hr
        simp only [List.length_cons, List.length_nil]
        omega
      · have hne : rest ≠ [] := by
          rcases hr with ⟨l2, x, he⟩
          subst he
          simp
        have hb := ih _ _ _ h hne
        rw [List.length_set] at hb
        simp only [List.length_cons]
        omega
    · cases h

lemma scatterEntries_getD_outside {σ β : Type} (F : σ → β → β) (zb : β) (off : Nat) :
    ∀ (sc : List σ) (i : Nat) (out out' : List β) (j : Nat) (z : β),
      scatterEntries F zb off i sc out = some out' →
      (j < i + off ∨ i + off + sc.length ≤ j) →
      out'.getD j z = out.getD j z := by
  intro sc
  induction sc with
  | nil =>
    intro i out out' j z h _
    rw [scatterEntries] at h
    cases h
    rfl
  | cons s rest ih =>
    intro i out out' j z h hj
    rw [scatterEntries] at h
    split at h
    · rw [ih _ _ _ _ _ h (by simp only [List.length_cons] at hj; omega)]
      exact getD_set_other _ _ _ _ _ (by simp only [List.length_cons] at hj; omega)
    · cases h

lemma scatterEntries_getD_write {σ β : Type} (F : σ → β → β) (zb : β) (off : Nat) :
    ∀ (sc : List σ) (i : Nat) (out out' : List β) (t : Nat) (w : σ),
      scatterEntries F zb off i sc out = some out' → t < sc.length →
      out'.getD (i + off + t) zb = F (sc.getD t w) (out.getD (i + off + t) zb) := by
  intro sc
  induction sc with
  | nil =>
    intro i out out' t w _ ht
    cases ht
  | cons s rest ih =>
    intro i out out' t w h ht
    rw [scatterEntries] at h
    split at h
    · next hin =>
      match t with
      | 0 =>
        rw [scatterEntries_getD_outside F zb off rest _ _ _ _ _ h (by omega)]
        rw [Nat.add_zero]
        rw [getD_set_self _ _ _ _ hin]
        rfl
      | Nat.succ t' =>
        have he : i + off + (t' + 1) = (i + 1) + off + t' := by omega
        rw [he, ih _ _ _ _ w h (by simpa using ht)]
        rw [getD_set_other _ _ _ _ _ (by omega)]
        rfl
    · cases h

lemma scatterEntries_isSome {σ β : Type} (F : σ → β → β) (zb : β) (off : Nat) :
    ∀ (sc : List σ) (i : Nat) (out : List β),
      (sc = [] ∨ i + off + sc.length ≤ out.length) →
      (scatterEntries F zb off i sc out).isSome := by
  intro sc
  induction sc with
  | nil =>
    intro i out _
    rw [scatterEntries]
    rfl
  | cons s rest ih =>
    intro i out hb
    rcases hb with hb | hb
    · cases hb
    · rw [scatterEntries]
      split
      · apply ih
        right
        rw [List.length_set]
        simp only [List.length_cons] at hb
        omega
      · next hn =>
        exfalso
        simp only [List.length_cons] at hb
        omega

lemma gradEntryWrite_getD_ne (dim d : Nat) (srow : List ℚ) (entry : List (List ℚ))
    (r : Nat) (z : List ℚ) (hr : r ≠ d) :
    (gradEntryWrite dim d srow entry).getD r z = entry.getD r z := by
  exact foldl_set_getD_ne (fun _ => d)
    (fun q e => (e.getD d []).set ((q + d) % dim) (srow.getD q 0))
    (List.range dim) entry r z (fun t _ => fun he => hr he.symm)

lemma gradEntryWrite_length (dim d : Nat) (srow : List ℚ) (entry : List (List ℚ)) :
    (gradEntryWrite dim d srow entry).length = entry.length := by
  exact foldl_set_length (fun _ => d)
    (fun q e => (e.getD d []).set ((q + d) % dim) (srow.getD q 0)) (List.range dim) entry

lemma gradEntryWrite_eq (dim d : Nat) (srow : List ℚ) (entry : List (List ℚ))
    (hd : d < entry.length) :
    gradEntryWrite dim d srow entry
      = entry.set d
          ((List.range dim).foldl (fun row q => row.set ((q + d) % dim) (srow.getD q 0))
            (entry.getD d [])) := by
  exact foldl_set_const d (fun q row => row.set ((q + d) % dim) (srow.getD q 0))
    (List.range dim) entry [] hd

lemma gradEntryWrite_getD_write (dim d : Nat) (srow : List ℚ) (entry : List (List ℚ))
    (hd : d < entry.length) (hrow : (entry.getD d []).length = dim) (q : Nat) (hq : q < dim) :
    ((gradEntryWrite dim d srow entry).getD d []).getD ((q + d) % dim) 0 = srow.getD q 0 := by
  rw [gradEntryWrite_eq dim d srow entry hd, getD_set_self _ _ _ _ hd]
  have := foldl_set_getD_distinct (fun u => (u + d) % dim) (fun u _ => srow.getD u 0)
    (List.range dim) (entry.getD d []) 0 (nodup_rot_mod dim d) q (List.mem_range.mpr hq)
    (by rw [hrow]; exact rot_mod_lt dim q d hq)
  exact this


lemma hessEntryWrite_getD_ne (dim d : Nat) (sh : List (List ℚ)) (entry : List (List (List ℚ)))
    (r : Nat) (z : List (List ℚ)) (hr : r ≠ d) :
    (hessEntryWrite dim d sh entry).getD r z = entry.getD r z := by
  rw [hessEntryWrite]
  suffices hgen : ∀ (L1 : List Nat) (e0 : List (List (List ℚ))),
      (L1.foldl
          (fun e d1 =>
            (List.range dim).foldl
              (fun e2 d2 =>
                e2.set d
                  ((e2.getD d []).set ((d1 + d) % dim)
                    (((e2.getD d []).getD ((d1 + d) % dim) []).set ((d2 + d) % dim)
                      ((sh.getD d1 []).getD d2 0))))
              e)
          e0).getD r z = e0.getD r z by
    exact hgen (List.range dim) entry
  intro L1
  induction L1 with
  | nil => intro e0; rfl
  | cons d1 rest ih =>
    intro e0
    rw [List.foldl_cons, ih]
    exact foldl_set_getD_ne (fun _ => d)
      (fun d2 e2 =>
        (e2.getD d []).set ((d1 + d) % dim)
          (((e2.getD d []).getD ((d1 + d) % dim) []).set ((d2 + d) % dim)
            ((sh.getD d1 []).getD d2 0)))
      (List.range dim) e0 r z (fun t _ => fun he => hr he.symm)

lemma hessEntryWrite_eq (dim d : Nat) (sh : List (List ℚ)) (entry : List (List (List ℚ)))
    (hd : d < entry.length) (hslice : (entry.getD d []).length = dim) :
    hessEntryWrite dim d sh entry
      = entry.set d
          ((List.range dim).foldl
            (fun s d1 =>
              s.set ((d1 + d) % dim)
                ((List.range dim).foldl
                  (fun row d2 => row.set ((d2 + d) % dim) ((sh.getD d1 []).getD d2 0))
                  (s.getD ((d1 + d) % dim) [])))
            (entry.getD d [])) := by
  rw [hessEntryWrite]
  have hcongr :
      (List.range dim).foldl
          (fun e d1 =>
            (List.range dim).foldl
              (fun e2 d2 =>
                e2.set d
                  ((e2.getD d []).set ((d1 + d) % dim)
                    (((e2.getD d []).getD ((d1 + d) % dim) []).set ((d2 + d) % dim)
                      ((sh.getD d1 []).getD d2 0))))
              e)
          entry
        = (List.range dim).foldl
            (fun e d1 =>
              e.set d
                ((e.getD d []).set ((d1 + d) % dim)
                  ((List.range dim).foldl
                    (fun row d2 => row.set ((d2 + d) % dim) ((sh.getD d1 []).getD d2 0))
                    ((e.getD d []).getD ((d1 + d) % dim) []))))
            entry := by
    apply foldl_congr_inv (fun e => d < e.length ∧ (e.getD d []).length = dim)
    · exact ⟨hd, hslice⟩
    · intro e d1 hP hd1
      have hd1' : d1 < dim := List.mem_range.mp hd1
      have hEq :
          (List.range dim).foldl
              (fun e2 d2 =>
                e2.set d
                  ((e2.getD d []).set ((d1 + d) % dim)
                    (((e2.getD d []).getD ((d1 + d) % dim) []).set ((d2 + d) % dim)
                      ((sh.getD d1 []).getD d2 0))))
              e
            = e.set d
                ((e.getD d []).set ((d1 + d) % dim)
                  ((List.range dim).foldl
                    (fun row d2 => row.set ((d2 + d) % dim) ((sh.getD d1 []).getD d2 0))
                    ((e.getD d []).getD ((d1 + d) % dim) []))) := by
        have hinner :
            (List.range dim).foldl
                (fun e2 d2 =>
                  e2.set d
                    ((e2.getD d []).set ((d1 + d) % dim)
                      (((e2.getD d []).getD ((d1 + d) % dim) []).set ((d2 + d) % dim)
                        ((sh.getD d1 []).getD d2 0))))
                e
              = e.set d
                  ((List.range dim).foldl
                    (fun s d2 =>
                      s.set ((d1 + d) % dim)
                        ((s.getD ((d1 + d) % dim) []).set ((d2 + d) % dim)
                          ((sh.getD d1 []).getD d2 0)))
                    (e.getD d [])) :=
          foldl_set_const d
            (fun d2 s =>
              s.set ((d1 + d) % dim)
                ((s.getD ((d1 + d) % dim) []).set ((d2 + d) % dim) ((sh.getD d1 []).getD d2 0)))
            (List.range dim) e [] hP.1
        have hinner2 :
            (List.range dim).foldl
                (fun s d2 =>
                  s.set ((d1 + d) % dim)
                    ((s.getD ((d1 + d) % dim) []).set ((d2 + d) % dim)
                      ((sh.getD d1 []).getD d2 0)))
                (e.getD d [])
              = (e.getD d []).set ((d1 + d) % dim)
                  ((List.range dim).foldl
                    (fun row d2 => row.set ((d2 + d) % dim) ((sh.getD d1 []).getD d2 0))
                    ((e.getD d []).getD ((d1 + d) % dim) [])) :=
          foldl_set_const ((d1 + d) % dim)
            (fun d2 row => row.set ((d2 + d) % dim) ((sh.getD d1 []).getD d2 0))
            (List.range dim) (e.getD d []) []
            (by rw [hP.2]; exact rot_mod_lt dim d1 d hd1')
        rw [hinner, hinner2]
      refine ⟨hEq, ?_⟩
      rw [hEq]
      constructor
      · rw [List.length_set]
        exact hP.1
      · rw [getD_set_self _ _ _ _ hP.1, List.length_set]
        exact hP.2
  rw [hcongr]
  exact foldl_set_const d
    (fun d1 s =>
      s.set ((d1 + d) % dim)
        ((List.range dim).foldl
          (fun row d2 => row.set ((d2 + d) % dim) ((sh.getD d1 []).getD d2 0))
          (s.getD ((d1 + d) % dim) [])))
    (List.range dim) entry [] hd

lemma hessEntryWrite_getD_write (dim d : Nat) (sh : List (List ℚ))
    (entry : List (List (List ℚ))) (hd : d < entry.length)
    (hslice : (entry.getD d []).length = dim)
    (hrows : ∀ r, r < dim → ((entry.getD d []).getD r []).length = dim)
    (a b : Nat) (ha : a < dim) (hb : b < dim) :
    ((((hessEntryWrite dim d sh entry).getD d []).getD ((a + d) % dim) []).getD ((b + d) % dim) 0)
      = (sh.getD a []).getD b 0 := by
  rw [hessEntryWrite_eq dim d sh entry hd hslice, getD_set_self _ _ _ _ hd]
  have hslicefold :
      ((List.range dim).foldl
          (fun s d1 =>
            s.set ((d1 + d) % dim)
              ((List.range dim).foldl
                (fun row d2 => row.set ((d2 + d) % dim) ((sh.getD d1 []).getD d2 0))
                (s.getD ((d1 + d) % dim) [])))
          (entry.getD d [])).getD ((a + d) % dim) []
        = (List.range dim).foldl
            (fun row d2 => row.set ((d2 + d) % dim) ((sh.getD a []).getD d2 0))
            ((entry.getD d []).getD ((a + d) % dim) []) :=
    foldl_set_getD_distinct (fun u => (u + d) % dim)
      (fun u row =>
        (List.range dim).foldl
          (fun r2 d2 => r2.set ((d2 + d) % dim) ((sh.getD u []).getD d2 0)) row)
      (List.range dim) (entry.getD d []) [] (nodup_rot_mod dim d) a (List.mem_range.mpr ha)
      (by rw [hslice]; exact rot_mod_lt dim a d ha)
  rw [hslicefold]
  exact foldl_set_getD_distinct (fun u => (u + d) % dim)
    (fun u _ => (sh.getD a []).getD u 0) (List.range dim)
    ((entry.getD d []).getD ((a + d) % dim) []) 0 (nodup_rot_mod dim d) b
    (List.mem_range.mpr hb)
    (by rw [hrows ((a + d) % dim) (rot_mod_lt dim a d ha)]; exact rot_mod_lt dim b d hb)

lemma fillValues_length (buf : List ℚ) (sp : AnisotropicPolynomials) (p : List ℚ) :
    (fillValues buf sp p).length = buf.length := by
  rw [fillValues, List.length_map, List.length_range]

lemma fillGrads_length (buf : List (List ℚ)) (sp : AnisotropicPolynomials) (dim : Nat)
    (p : List ℚ) : (fillGrads buf sp dim p).length = buf.length := by
  rw [fillGrads, List.length_map, List.length_range]

lemma fillHessians_length (buf : List (List (List ℚ))) (sp : AnisotropicPolynomials) (dim : Nat)
    (p : List ℚ) : (fillHessians buf sp dim p).length = buf.length := by
  rw [fillHessians, List.length_map, List.length_range]

lemma fillValues_getD (buf : List ℚ) (sp : AnisotropicPolynomials) (p : List ℚ) (t : Nat)
    (z : ℚ) (h : t < buf.length) :
    (fillValues buf sp p).getD t z = sp.basisValue t p := by
  rw [fillValues]
  exact getD_range_map _ _ _ _ h

lemma fillGrads_getD (buf : List (List ℚ)) (sp : AnisotropicPolynomials) (dim : Nat)
    (p : List ℚ) (t : Nat) (z : List ℚ) (h : t < buf.length) :
    (fillGrads buf sp dim p).getD t z = (List.range dim).map (fun q => sp.basisGrad t q p) := by
  rw [fillGrads]
  exact getD_range_map _ _ _ _ h

lemma fillHessians_getD (buf : List (List (List ℚ))) (sp : AnisotropicPolynomials) (dim : Nat)
    (p : List ℚ) (t : Nat) (z : List (List ℚ)) (h : t < buf.length) :
    (fillHessians buf sp dim p).getD t z
      = (List.range dim).map (fun a => (List.range dim).map (fun b => sp.basisHess t a b p)) := by
  rw [fillHessians]
  exact getD_range_map _ _ _ _ h

lemma fill_nil_of_len_zero {β : Type} (m : Nat) (f : Nat → β) (h : m = 0) :
    (List.range m).map f = ([] : List β) := by
  subst h
  rfl

lemma computeLoop_char (sp : AnisotropicPolynomials) (dim ns : Nat) (pt : List ℚ)
    (hns : 0 < ns) :
    ∀ (rem d : Nat) (sv : List ℚ) (sg : List (List ℚ)) (sh : List (List (List ℚ)))
      (v : List (List ℚ)) (g : List (List (List ℚ))) (h : List (List (List (List ℚ))))
      (out : List (List ℚ) × List (List (List ℚ)) × List (List (List (List ℚ)))),
      computeLoop sp dim ns pt rem d (sv, sg, sh) (v, g, h) = some out →
      (sv.length = 0 ∨ sv.length = ns) →
      (sg.length = 0 ∨ sg.length = ns) →
      (sh.length = 0 ∨ sh.length = ns) →
      (out.1.length = v.length ∧ out.2.1.length = g.length ∧ out.2.2.length = h.length)
      ∧ (sv.length = 0 → out.1 = v)
      ∧ (sg.length = 0 → out.2.1 = g)
      ∧ (sh.length = 0 → out.2.2 = h)
      ∧ (∀ j (z : List ℚ), j < d * ns ∨ (d + rem) * ns ≤ j → out.1.getD j z = v.getD j z)
      ∧ (∀ j (z : List (List ℚ)), j < d * ns ∨ (d + rem) * ns ≤ j →
          out.2.1.getD j z = g.getD j z)
      ∧ (∀ j (z : List (List (List ℚ))), j < d * ns ∨ (d + rem) * ns ≤ j →
          out.2.2.getD j z = h.getD j z)
      ∧ (sv.length = ns → ∀ e t, d ≤ e → e < d + rem → t < ns →
          out.1.getD (e * ns + t) [] =
            (v.getD (e * ns + t) []).set e (sp.basisValue t (rotatePoint dim pt e)))
      ∧ (sg.length = ns → ∀ e t, d ≤ e → e < d + rem → t < ns →
          out.2.1.getD (e * ns + t) [] =
            gradEntryWrite dim e
              ((List.range dim).map (fun q => sp.basisGrad t q (rotatePoint dim pt e)))
              (g.getD (e * ns + t) []))
      ∧ (sh.length = ns → ∀ e t, d ≤ e → e < d + rem → t < ns →
          out.2.2.getD (e * ns + t) [] =
            hessEntryWrite dim e
              ((List.range dim).map
                (fun a => (List.range dim).map (fun b => sp.basisHess t a b (rotatePoint dim pt e))))
              (h.getD (e * ns + t) []))
      ∧ (rem ≠ 0 → sv.length = ns → (d + rem) * ns ≤ v.length)
      ∧ (rem ≠ 0 → sg.length = ns → (d + rem) * ns ≤ g.length)
      ∧ (rem ≠ 0 → sh.length = ns → (d + rem) * ns ≤ h.length) := by
  intro rem
  induction rem with
  | zero =>
    intro d sv sg sh v g h out hloop hsv hsg hsh
    rw [computeLoop] at hloop
    cases hloop
    refine ⟨⟨rfl, rfl, rfl⟩, fun _ => rfl, fun _ => rfl, fun _ => rfl,
      fun j z _ => rfl, fun j z _ => rfl, fun j z _ => rfl,
      fun _ e t he1 he2 _ => absurd (Nat.lt_of_le_of_lt he1 he2) (by omega),
      fun _ e t he1 he2 _ => absurd (Nat.lt_of_le_of_lt he1 he2) (by omega),
      fun _ e t he1 he2 _ => absurd (Nat.lt_of_le_of_lt he1 he2) (by omega),
      fun hc => absurd rfl hc, fun hc => absurd rfl hc, fun hc => absurd rfl hc⟩
  | succ rem ih =>
    intro d sv sg sh v g h out hloop hsv hsg hsh
    simp only [computeLoop] at hloop
    rw [Option.bind_eq_some] at hloop
    obtain ⟨v1, hv1, hloop⟩ := hloop
    rw [Option.bind_eq_some] at hloop
    obtain ⟨g1, hg1, hloop⟩ := hloop
    rw [Option.bind_eq_some] at hloop
    obtain ⟨h1, hh1, hloop⟩ := hloop
    have hpvlen : (fillValues sv sp (rotatePoint dim pt d)).length = sv.length :=
      fillValues_length sv sp (rotatePoint dim pt d)
    have hpglen : (fillGrads sg sp dim (rotatePoint dim pt d)).length = sg.length :=
      fillGrads_length sg sp dim (rotatePoint dim pt d)
    have hphlen : (fillHessians sh sp dim (rotatePoint dim pt d)).length = sh.length :=
      fillHessians_length sh sp dim (rotatePoint dim pt d)
    have hv1len : v1.length = v.length := scatterEntries_length _ _ _ _ _ _ _ hv1
    have hg1len : g1.length = g.length := scatterEntries_length _ _ _ _ _ _ _ hg1
    have hh1len : h1.length = h.length := scatterEntries_length _ _ _ _ _ _ _ hh1
    obtain ⟨ihlen, ihev, iheg, iheh, ihuv, ihug, ihuh, ihwv, ihwg, ihwh, ihbv, ihbg, ihbh⟩ :=
      ih (d + 1) _ _ _ v1 g1 h1 out hloop (by rw [hpvlen]; exact hsv)
        (by rw [hpglen]; exact hsg) (by rw [hphlen]; exact hsh)
    have harith : (d + 1) * ns = d * ns + ns := by ring
    have harith2 : (d + 1 + rem) * ns = (d + (rem + 1)) * ns := by ring
    have hm1 : d * ns ≤ (d + 1) * ns := Nat.mul_le_mul_right ns (by omega)
    have hm2 : (d + 1) * ns ≤ (d + 1 + rem) * ns := Nat.mul_le_mul_right ns (by omega)
    refine ⟨⟨?_, ?_, ?_⟩, ?_, ?_, ?_, ?_, ?_, ?_, ?_, ?_, ?_, ?_, ?_, ?_⟩
    · rw [ihlen.1, hv1len]
    · rw [ihlen.2.1, hg1len]
    · rw [ihlen.2.2, hh1len]
    · -- values untouched when the value buffer is empty
      intro h0
      have hpv0 : fillValues sv sp (rotatePoint dim pt d) = [] := by
        rw [fillValues]
        exact fill_nil_of_len_zero _ _ h0
      rw [hpv0] at hv1
      rw [scatterEntries] at hv1
      cases hv1
      exact ihev (by rw [hpvlen]; exact h0)
    · intro h0
      have hpg0 : fillGrads sg sp dim (rotatePoint dim pt d) = [] := by
        rw [fillGrads]
        exact fill_nil_of_len_zero _ _ h0
      rw [hpg0] at hg1
      rw [scatterEntries] at hg1
      cases hg1
      exact iheg (by rw [hpglen]; exact h0)
    · intro h0
      have hph0 : fillHessians sh sp dim (rotatePoint dim pt d) = [] := by
        rw [fillHessians]
        exact fill_nil_of_len_zero _ _ h0
      rw [hph0] at hh1
      rw [scatterEntries] at hh1
      cases hh1
      exact iheh (by rw [hphlen]; exact h0)
    · -- values unchanged outside the written range
      intro j z hj
      have hout : out.1.getD j z = v1.getD j z := by
        apply ihuv j z
        rcases hj with hj | hj
        · exact Or.inl (by omega)
        · exact Or.inr (by rw [harith2]; exact hj)
      rw [hout]
      apply scatterEntries_getD_outside _ _ _ _ _ _ _ _ _ hv1
      rcases hj with hj | hj
      · exact Or.inl (by omega)
      · right
        rcases hsv with h0 | h0
        · rw [hpvlen, h0]
          omega
        · rw [hpvlen, h0]
          omega
    · intro j z hj
      have hout : out.2.1.getD j z = g1.getD j z := by
        apply ihug j z
        rcases hj with hj | hj
        · exact Or.inl (by omega)
        · exact Or.inr (by rw [harith2]; exact hj)
      rw [hout]
      apply scatterEntries_getD_outside _ _ _ _ _ _ _ _ _ hg1
      rcases hj with hj | hj
      · exact Or.inl (by omega)
      · right
        rcases hsg with h0 | h0
        · rw [hpglen, h0]
          omega
        · rw [hpglen, h0]
          omega
    · intro j z hj
      have hout : out.2.2.getD j z = h1.getD j z := by
        apply ihuh j z
        rcases hj with hj | hj
        · exact Or.inl (by omega)
        · exact Or.inr (by rw [harith2]; exact hj)
      rw [hout]
      apply scatterEntries_getD_outside _ _ _ _ _ _ _ _ _ hh1
      rcases hj with hj | hj
      · exact Or.inl (by omega)
      · right
        rcases hsh with h0 | h0
        · rw [hphlen, h0]
          omega
        · rw [hphlen, h0]
          omega
    · -- written values
      intro hlen e t he1 he2 ht
      rcases Nat.eq_or_lt_of_le he1 with heq | hlt
      · subst heq
        have hout : out.1.getD (d * ns + t) [] = v1.getD (d * ns + t) [] := by
          apply ihuv
          left
          omega
        rw [hout]
        have hw := scatterEntries_getD_write (fun x entry => entry.set d x) [] (d * ns)
          (fillValues sv sp (rotatePoint dim pt d)) 0 v v1 t 0 hv1
          (by rw [hpvlen, hlen]; exact ht)
        simp only [Nat.zero_add] at hw
        rw [hw, fillValues_getD sv sp (rotatePoint dim pt d) t 0 (by rw [hlen]; exact ht)]
      · have hout := ihwv (by rw [hpvlen]; exact hlen) e t hlt (by omega) ht
        rw [hout]
        have hunch : v1.getD (e * ns + t) [] = v.getD (e * ns + t) [] := by
          apply scatterEntries_getD_outside _ _ _ _ _ _ _ _ _ hv1
          right
          rw [hpvlen, hlen]
          have : (d + 1) * ns ≤ e * ns := Nat.mul_le_mul_right ns (by omega)
          omega
        rw [hunch]
    · -- written grads
      intro hlen e t he1 he2 ht
      rcases Nat.eq_or_lt_of_le he1 with heq | hlt
      · subst heq
        have hout : out.2.1.getD (d * ns + t) [] = g1.getD (d * ns + t) [] := by
          apply ihug
          left
          omega
        rw [hout]
        have hw := scatterEntries_getD_write (gradEntryWrite dim d) [] (d * ns)
          (fillGrads sg sp dim (rotatePoint dim pt d)) 0 g g1 t [] hg1
          (by rw [hpglen, hlen]; exact ht)
        simp only [Nat.zero_add] at hw
        rw [hw, fillGrads_getD sg sp dim (rotatePoint dim pt d) t [] (by rw [hlen]; exact ht)]
      · have hout := ihwg (by rw [hpglen]; exact hlen) e t hlt (by omega) ht
        rw [hout]
        have hunch : g1.getD (e * ns + t) [] = g.getD (e * ns + t) [] := by
          apply scatterEntries_getD_outside _ _ _ _ _ _ _ _ _ hg1
          right
          rw [hpglen, hlen]
          have : (d + 1) * ns ≤ e * ns := Nat.mul_le_mul_right ns (by omega)
          omega
        rw [hunch]
    · -- written hessians
      intro hlen e t he1 he2 ht
      rcases Nat.eq_or_lt_of_le he1 with heq | hlt
      · subst heq
        have hout : out.2.2.getD (d * ns + t) [] = h1.getD (d * ns + t) [] := by
          apply ihuh
          left
          omega
        rw [hout]
        have hw := scatterEntries_getD_write (hessEntryWrite dim d) [] (d * ns)
          (fillHessians sh sp dim (rotatePoint dim pt d)) 0 h h1 t [] hh1
          (by rw [hphlen, hlen]; exact ht)
        simp only [Nat.zero_add] at hw
        rw [hw, fillHessians_getD sh sp dim (rotatePoint dim pt d) t [] (by rw [hlen]; exact ht)]
      · have hout := ihwh (by rw [hphlen]; exact hlen) e t hlt (by omega) ht
        rw [hout]
        have hunch : h1.getD (e * ns + t) [] = h.getD (e * ns + t) [] := by
          apply scatterEntries_getD_outside _ _ _ _ _ _ _ _ _ hh1
          right
          rw [hphlen, hlen]
          have : (d + 1) * ns ≤ e * ns := Nat.mul_le_mul_right ns (by omega)
          omega
        rw [hunch]
    · -- container bound for values
      intro _ hlen
      have hpvne : fillValues sv sp (rotatePoint dim pt d) ≠ [] := by
        intro hnil
        rw [hnil] at hpvlen
        rw [hlen] at hpvlen
        simp at hpvlen
        omega
      have hb := scatterEntries_bound _ _ _ _ _ _ _ hv1 hpvne
      rw [hpvlen, hlen] at hb
      rcases Nat.eq_zero_or_pos rem with h0 | hpos
      · subst h0
        have he0 : (d + (0 + 1)) * ns = d * ns + ns := by ring
        omega
      · have := ihbv (by omega) (by rw [hpvlen]; exact hlen)
        rw [hv1len] at this
        omega
    · intro _ hlen
      have hpgne : fillGrads sg sp dim (rotatePoint dim pt d) ≠ [] := by
        intro hnil
        rw [hnil] at hpglen
        rw [hlen] at hpglen
        simp at hpglen
        omega
      have hb := scatterEntries_bound _ _ _ _ _ _ _ hg1 hpgne
      rw [hpglen, hlen] at hb
      rcases Nat.eq_zero_or_pos rem with h0 | hpos
      · subst h0
        have he0 : (d + (0 + 1)) * ns = d * ns + ns := by ring
        omega
      · have := ihbg (by omega) (by rw [hpglen]; exact hlen)
        rw [hg1len] at this
        omega
    · intro _ hlen
      have hphne : fillHessians sh sp dim (rotatePoint dim pt d) ≠ [] := by
        intro hnil
        rw [hnil] at hphlen
        rw [hlen] at hphlen
        simp at hphlen
        omega
      have hb := scatterEntries_bound _ _ _ _ _ _ _ hh1 hphne
      rw [hphlen, hlen] at hb
      rcases Nat.eq_zero_or_pos rem with h0 | hpos
      · subst h0
        have he0 : (d + (0 + 1)) * ns = d * ns + ns := by ring
        omega
      · have := ihbh (by omega) (by rw [hphlen]; exact hlen)
        rw [hh1len] at this
        omega

lemma computeLoop_isSome (sp : AnisotropicPolynomials) (dim ns : Nat) (pt : List ℚ) :
    ∀ (rem d : Nat) (sv : List ℚ) (sg : List (List ℚ)) (sh : List (List (List ℚ)))
      (v : List (List ℚ)) (g : List (List (List ℚ))) (h : List (List (List (List ℚ)))),
      (sv.length = 0 ∨ (sv.length = ns ∧ (d + rem) * ns ≤ v.length)) →
      (sg.length = 0 ∨ (sg.length = ns ∧ (d + rem) * ns ≤ g.length)) →
      (sh.length = 0 ∨ (sh.length = ns ∧ (d + rem) * ns ≤ h.length)) →
      (computeLoop sp dim ns pt rem d (sv, sg, sh) (v, g, h)).isSome := by
  intro rem
  induction rem with
  | zero =>
    intro d sv sg sh v g h _ _ _
    rw [computeLoop]
    rfl
  | succ rem ih =>
    intro d sv sg sh v g h hv hg hh
    simp only [computeLoop]
    have harith : (d + 1) * ns = d * ns + ns := by ring
    have hm2 : (d + 1) * ns ≤ (d + 1 + rem) * ns := Nat.mul_le_mul_right ns (by omega)
    have harith2 : (d + 1 + rem) * ns = (d + (rem + 1)) * ns := by ring
    have hsv1 : (scatterEntries (fun x entry => entry.set d x) [] (d * ns) 0
        (fillValues sv sp (rotatePoint dim pt d)) v).isSome := by
      apply scatterEntries_isSome
      rcases hv with h0 | ⟨h1, h2⟩
      · left
        rw [fillValues]
        exact fill_nil_of_len_zero _ _ h0
      · right
        rw [fillValues_length, h1]
        omega
    rw [Option.isSome_iff_exists] at hsv1
    obtain ⟨v1, hv1⟩ := hsv1
    rw [hv1]
    have hsg1 : (scatterEntries (gradEntryWrite dim d) [] (d * ns) 0
        (fillGrads sg sp dim (rotatePoint dim pt d)) g).isSome := by
      apply scatterEntries_isSome
      rcases hg with h0 | ⟨h1, h2⟩
      · left
        rw [fillGrads]
        exact fill_nil_of_len_zero _ _ h0
      · right
        rw [fillGrads_length, h1]
        omega
    rw [Option.isSome_iff_exists] at hsg1
    obtain ⟨g1, hg1⟩ := hsg1
    rw [hg1]
    have hsh1 : (scatterEntries (hessEntryWrite dim d) [] (d * ns) 0
        (fillHessians sh sp dim (rotatePoint dim pt d)) h).isSome := by
      apply scatterEntries_isSome
      rcases hh with h0 | ⟨h1, h2⟩
      · left
        rw [fillHessians]
        exact fill_nil_of_len_zero _ _ h0
      · right
        rw [fillHessians_length, h1]
        omega
    rw [Option.isSome_iff_exists] at hsh1
    obtain ⟨h1, hh1⟩ := hsh1
    rw [hh1]
    simp only [Option.some_bind]
    apply ih
    · rcases hv with h0 | ⟨hl1, hl2⟩
      · left
        rw [fillValues_length]
        exact h0
      · right
        constructor
        · rw [fillValues_length]
          exact hl1
        · rw [scatterEntries_length _ _ _ _ _ _ _ hv1]
          omega
    · rcases hg with h0 | ⟨hl1, hl2⟩
      · left
        rw [fillGrads_length]
        exact h0
      · right
        constructor
        · rw [fillGrads_length]
          exact hl1
        · rw [scatterEntries_length _ _ _ _ _ _ _ hg1]
          omega
    · rcases hh with h0 | ⟨hl1, hl2⟩
      · left
        rw [fillHessians_length]
        exact h0
      · right
        constructor
        · rw [fillHessians_length]
          exact hl1
        · rw [scatterEntries_length _ _ _ _ _ _ _ hh1]
          omega

lemma compute_ok_char (abf : PolynomialsABF) (pt : List ℚ)
    (v : List (List ℚ)) (g : List (List (List ℚ))) (h : List (List (List (List ℚ))))
    (scr : List ℚ × List (List ℚ) × List (List (List ℚ)))
    (out : List (List ℚ) × List (List (List ℚ)) × List (List (List (List ℚ))))
    (hns : 0 < abf.polynomial_space.n) (hdim : 0 < abf.dim)
    (hok : abf.compute pt v g h scr = .ok out) :
    ((v.length = abf.n_pols ∨ v.length = 0) ∧ (g.length = abf.n_pols ∨ g.length = 0)
      ∧ (h.length = abf.n_pols ∨ h.length = 0))
    ∧ (out.1.length = v.length ∧ out.2.1.length = g.length ∧ out.2.2.length = h.length)
    ∧ (v.length = 0 → out.1 = v) ∧ (g.length = 0 → out.2.1 = g) ∧ (h.length = 0 → out.2.2 = h)
    ∧ (∀ j (z : List ℚ), abf.dim * abf.polynomial_space.n ≤ j → out.1.getD j z = v.getD j z)
    ∧ (∀ j (z : List (List ℚ)), abf.dim * abf.polynomial_space.n ≤ j →
        out.2.1.getD j z = g.getD j z)
    ∧ (∀ j (z : List (List (List ℚ))), abf.dim * abf.polynomial_space.n ≤ j →
        out.2.2.getD j z = h.getD j z)
    ∧ (v.length ≠ 0 → ∀ e t, e < abf.dim → t < abf.polynomial_space.n →
        out.1.getD (e * abf.polynomial_space.n + t) [] =
          (v.getD (e * abf.polynomial_space.n + t) []).set e
            (abf.polynomial_space.basisValue t (rotatePoint abf.dim pt e)))
    ∧ (g.length ≠ 0 → ∀ e t, e < abf.dim → t < abf.polynomial_space.n →
        out.2.1.getD (e * abf.polynomial_space.n + t) [] =
          gradEntryWrite abf.dim e
            ((List.range abf.dim).map
              (fun q => abf.polynomial_space.basisGrad t q (rotatePoint abf.dim pt e)))
            (g.getD (e * abf.polynomial_space.n + t) []))
    ∧ (h.length ≠ 0 → ∀ e t, e < abf.dim → t < abf.polynomial_space.n →
        out.2.2.getD (e * abf.polynomial_space.n + t) [] =
          hessEntryWrite abf.dim e
            ((List.range abf.dim).map
              (fun a => (List.range abf.dim).map
                (fun b => abf.polynomial_space.basisHess t a b (rotatePoint abf.dim pt e))))
            (h.getD (e * abf.polynomial_space.n + t) []))
    ∧ (v.length ≠ 0 → abf.dim * abf.polynomial_space.n ≤ v.length)
    ∧ (g.length ≠ 0 → abf.dim * abf.polynomial_space.n ≤ g.length)
    ∧ (h.length ≠ 0 → abf.dim * abf.polynomial_space.n ≤ h.length) := by
  simp only [PolynomialsABF.compute] at hok
  split at hok
  · simp at hok
  split at hok
  · simp at hok
  split at hok
  · simp at hok
  next hgv hgg hgh =>
  rw [not_not] at hgv hgg hgh
  refine ⟨⟨hgv, hgg, hgh⟩, ?_⟩
  rcases hloop : computeLoop abf.polynomial_space abf.dim abf.polynomial_space.n pt abf.dim 0
      (vectorResize scr.1 (if v.length = 0 then 0 else abf.polynomial_space.n) 0,
       vectorResize scr.2.1 (if g.length = 0 then 0 else abf.polynomial_space.n) [],
       vectorResize scr.2.2 (if h.length = 0 then 0 else abf.polynomial_space.n) [])
      (v, g, h) with _ | out0
  · rw [hloop] at hok
    simp at hok
  rw [hloop] at hok
  simp only [Except.ok.injEq] at hok
  subst hok
  obtain ⟨clen, cev, ceg, ceh, cuv, cug, cuh, cwv, cwg, cwh, cbv, cbg, cbh⟩ :=
    computeLoop_char abf.polynomial_space abf.dim abf.polynomial_space.n pt hns abf.dim 0
      _ _ _ v g h out0 hloop
      (by rw [vectorResize_length]; split <;> simp)
      (by rw [vectorResize_length]; split <;> simp)
      (by rw [vectorResize_length]; split <;> simp)
  have hsvlen : (vectorResize scr.1 (if v.length = 0 then 0 else abf.polynomial_space.n) 0).length
      = if v.length = 0 then 0 else abf.polynomial_space.n := vectorResize_length _ _ _
  have hsglen : (vectorResize scr.2.1 (if g.length = 0 then 0 else abf.polynomial_space.n)
      []).length = if g.length = 0 then 0 else abf.polynomial_space.n := vectorResize_length _ _ _
  have hshlen : (vectorResize scr.2.2 (if h.length = 0 then 0 else abf.polynomial_space.n)
      []).length = if h.length = 0 then 0 else abf.polynomial_space.n := vectorResize_length _ _ _
  have harith : (0 + abf.dim) * abf.polynomial_space.n = abf.dim * abf.polynomial_space.n := by
    ring
  refine ⟨clen, ?_, ?_, ?_, ?_, ?_, ?_, ?_, ?_, ?_, ?_, ?_, ?_⟩
  · intro h0
    exact cev (by rw [hsvlen, if_pos h0])
  · intro h0
    exact ceg (by rw [hsglen, if_pos h0])
  · intro h0
    exact ceh (by rw [hshlen, if_pos h0])
  · intro j z hj
    exact cuv j z (Or.inr (by rw [harith]; exact hj))
  · intro j z hj
    exact cug j z (Or.inr (by rw [harith]; exact hj))
  · intro j z hj
    exact cuh j z (Or.inr (by rw [harith]; exact hj))
  · intro h0 e t he ht
    exact cwv (by rw [hsvlen, if_neg h0]) e t (Nat.zero_le e) (by omega) ht
  · intro h0 e t he ht
    exact cwg (by rw [hsglen, if_neg h0]) e t (Nat.zero_le e) (by omega) ht
  · intro h0 e t he ht
    exact cwh (by rw [hshlen, if_neg h0]) e t (Nat.zero_le e) (by omega) ht
  · intro h0
    have := cbv (by omega) (by rw [hsvlen, if_neg h0])
    rw [harith] at this
    exact this
  · intro h0
    have := cbg (by omega) (by rw [hsglen, if_neg h0])
    rw [harith] at this
    exact this
  · intro h0
    have := cbh (by omega) (by rw [hshlen, if_neg h0])
    rw [harith] at this
    exact this

lemma lagrange_basis_length (n : Nat) :
    (LagrangeEquidistant.generate_complete_basis n).length = n + 1 := by
  rw [LagrangeEquidistant.generate_complete_basis]
  split
  · next h0 =>
    subst h0
    rfl
  · rw [List.length_map, List.length_range]

lemma legendre_basis_length (n : Nat) :
    (Legendre.generate_complete_basis n).length = n + 1 := by
  rw [Legendre.generate_complete_basis, List.length_map, List.length_range]

lemma other_family_length (k : Nat) :
    (if k = 0 then Legendre.generate_complete_basis 0
      else LagrangeEquidistant.generate_complete_basis k).length = k + 1 := by
  split
  · next h0 =>
    subst h0
    rfl
  · exact lagrange_basis_length k

lemma map_range_const {α : Type} (m : Nat) (c : α) :
    (List.range m).map (fun _ => c) = List.replicate m c := by
  rw [List.eq_replicate_iff]
  constructor
  · rw [List.length_map, List.length_range]
  · intro b hb
    rcases List.mem_map.mp hb with ⟨a, _, ha⟩
    exact ha.symm

lemma foldl_mul_replicate (m a c : Nat) :
    (List.replicate m c).foldl (· * ·) a = a * c ^ m := by
  induction m generalizing a with
  | zero => simp
  | succ m ih =>
    rw [List.replicate_succ, List.foldl_cons, ih]
    ring

lemma mk_fields (dim k : Nat) (abf : PolynomialsABF)
    (hmk : mkPolynomialsABF dim k = .ok abf) :
    abf.dim = dim ∧ abf.my_degree = k ∧ compute_n_pols dim k = .ok abf.n_pols ∧
    abf.polynomial_space.pols =
      LagrangeEquidistant.generate_complete_basis (k + 2) ::
        (List.range (dim - 1)).map
          (fun _ =>
            if k = 0 then Legendre.generate_complete_basis 0
            else LagrangeEquidistant.generate_complete_basis k) := by
  rw [mkPolynomialsABF] at hmk
  rcases hc : compute_n_pols dim k with e | np
  · rw [hc] at hmk
    simp at hmk
  · rw [hc] at hmk
    simp only [Except.ok.injEq] at hmk
    subst hmk
    refine ⟨rfl, rfl, ?_, rfl⟩
    rfl

lemma mk_n (dim k : Nat) (abf : PolynomialsABF)
    (hmk : mkPolynomialsABF dim k = .ok abf) :
    abf.polynomial_space.n = (k + 3) * (k + 1) ^ (dim - 1) := by
  obtain ⟨_, _, _, hpols⟩ := mk_fields dim k abf hmk
  rw [AnisotropicPolynomials.n, hpols]
  rw [List.map_cons, lagrange_basis_length]
  have hmapmap :
      ((List.range (dim - 1)).map
          (fun _ =>
            if k = 0 then Legendre.generate_complete_basis 0
            else LagrangeEquidistant.generate_complete_basis k)).map List.length
        = List.replicate (dim - 1) (k + 1) := by
    rw [List.map_map]
    have : (List.length ∘ fun _ : Nat =>
        if k = 0 then Legendre.generate_complete_basis 0
        else LagrangeEquidistant.generate_complete_basis k)
        = fun _ : Nat => k + 1 := by
      funext x
      simp only [Function.comp_apply]
      exact other_family_length k
    rw [this, map_range_const]
  rw [hmapmap, List.foldl_cons, foldl_mul_replicate]
  ring

lemma mk_n_pos (dim k : Nat) (abf : PolynomialsABF)
    (hmk : mkPolynomialsABF dim k = .ok abf) : 0 < abf.polynomial_space.n := by
  rw [mk_n dim k abf hmk]
  positivity

lemma mk_dim2_n_pols (k : Nat) (abf : PolynomialsABF)
    (hmk : mkPolynomialsABF 2 k = .ok abf) :
    abf.n_pols = 2 * (k + 1) * (k + 3) ∧ abf.polynomial_space.n = (k + 3) * (k + 1)
      ∧ abf.dim = 2 := by
  obtain ⟨hdim, _, hnp, _⟩ := mk_fields 2 k abf hmk
  have h2 : compute_n_pols 2 k = .ok (2 * (k + 1) * (k + 3)) := by
    rw [compute_n_pols]
    norm_num
  rw [h2] at hnp
  simp only [Except.ok.injEq] at hnp
  refine ⟨hnp.symm, ?_, hdim⟩
  rw [mk_n 2 k abf hmk]
  ring

lemma compute2_isOk (k : Nat) (abf : PolynomialsABF) (hmk : mkPolynomialsABF 2 k = .ok abf)
    (pt : List ℚ) (v : List (List ℚ)) (g : List (List (List ℚ)))
    (h : List (List (List (List ℚ)))) (scr : List ℚ × List (List ℚ) × List (List (List ℚ)))
    (hv : v.length = abf.n_pols ∨ v.length = 0)
    (hg : g.length = abf.n_pols ∨ g.length = 0)
    (hh : h.length = abf.n_pols ∨ h.length = 0) :
    ∃ out, abf.compute pt v g h scr = .ok out := by
  obtain ⟨hnp, hn, hdim⟩ := mk_dim2_n_pols k abf hmk
  have hble : (0 + abf.dim) * abf.polynomial_space.n ≤ abf.n_pols := by
    rw [hdim, hn, hnp]
    have he : (0 + 2) * ((k + 3) * (k + 1)) = 2 * (k + 1) * (k + 3) := by ring
    omega
  have hsome : (computeLoop abf.polynomial_space abf.dim abf.polynomial_space.n pt abf.dim 0
      (vectorResize scr.1 (if v.length = 0 then 0 else abf.polynomial_space.n) 0,
       vectorResize scr.2.1 (if g.length = 0 then 0 else abf.polynomial_space.n) [],
       vectorResize scr.2.2 (if h.length = 0 then 0 else abf.polynomial_space.n) [])
      (v, g, h)).isSome := by
    apply computeLoop_isSome
    · by_cases hv0 : v.length = 0
      · left
        rw [vectorResize_length, if_pos hv0]
      · right
        refine ⟨by rw [vectorResize_length, if_neg hv0], ?_⟩
        rcases hv with hv | hv
        · rw [hv]
          exact hble
        · exact absurd hv hv0
    · by_cases hg0 : g.length = 0
      · left
        rw [vectorResize_length, if_pos hg0]
      · right
        refine ⟨by rw [vectorResize_length, if_neg hg0], ?_⟩
        rcases hg with hg | hg
        · rw [hg]
          exact hble
        · exact absurd hg hg0
    · by_cases hh0 : h.length = 0
      · left
        rw [vectorResize_length, if_pos hh0]
      · right
        refine ⟨by rw [vectorResize_length, if_neg hh0], ?_⟩
        rcases hh with hh | hh
        · rw [hh]
          exact hble
        · exact absurd hh hh0
  rw [Option.isSome_iff_exists] at hsome
  obtain ⟨out0, hout⟩ := hsome
  refine ⟨out0, ?_⟩
  simp only [PolynomialsABF.compute]
  rw [if_neg (not_not_intro hv), if_neg (not_not_intro hg), if_neg (not_not_intro hh), hout]

lemma zeroT1_length (n dim : Nat) : (zeroT1 n dim).length = n := by
  rw [zeroT1, List.length_replicate]

lemma zeroT2_length (n dim : Nat) : (zeroT2 n dim).length = n := by
  rw [zeroT2, List.length_replicate]

lemma zeroT3_length (n dim : Nat) : (zeroT3 n dim).length = n := by
  rw [zeroT3, List.length_replicate]

lemma zeroT1_mem (n dim : Nat) (x : List ℚ) (hx : x ∈ zeroT1 n dim) : x.length = dim := by
  rw [zeroT1] at hx
  rw [List.eq_of_mem_replicate hx, List.length_replicate]

lemma zeroT2_mem (n dim : Nat) (x : List (List ℚ)) (hx : x ∈ zeroT2 n dim) :
    x.length = dim ∧ ∀ r ∈ x, r.length = dim := by
  rw [zeroT2] at hx
  rw [List.eq_of_mem_replicate hx]
  refine ⟨List.length_replicate _ _, ?_⟩
  intro r hr
  rw [List.eq_of_mem_replicate hr, List.length_replicate]

lemma zeroT3_mem (n dim : Nat) (x : List (List (List ℚ))) (hx : x ∈ zeroT3 n dim) :
    x.length = dim ∧ (∀ s ∈ x, s.length = dim) ∧ ∀ s ∈ x, ∀ r ∈ s, r.length = dim := by
  rw [zeroT3] at hx
  rw [List.eq_of_mem_replicate hx]
  refine ⟨List.length_replicate _ _, ?_, ?_⟩
  · intro s hs
    rw [List.eq_of_mem_replicate hs, List.length_replicate]
  · intro s hs r hr
    rw [List.eq_of_mem_replicate hs] at hr
    rw [List.eq_of_mem_replicate hr, List.length_replicate]

instance {E A : Type} [DecidableEq E] [DecidableEq A] : DecidableEq (Except E A) := fun x y =>
  match x, y with
  | .error e, .error f =>
    if h : e = f then .isTrue (by rw [h]) else .isFalse (fun he => h (Except.error.inj he))
  | .error _, .ok _ => .isFalse (fun he => Except.noConfusion he)
  | .ok _, .error _ => .isFalse (fun he => Except.noConfusion he)
  | .ok a, .ok b =>
    if h : a = b then .isTrue (by rw [h]) else .isFalse (fun he => h (Except.ok.inj he))

/-- C3: `compute_n_pols(dim, k)` returns `k+1` for dim=1, `2(k+1)(k+3)` for
dim=2, `3(k+1)(k+1)(k+2)` for dim=3, and fails with the unsupported-dimension
error (`ExcNotImplemented`) for any other dimension. -/
theorem C3_compute_n_pols_formula (k : Nat) :
    compute_n_pols 1 k = .ok (k + 1)
    ∧ compute_n_pols 2 k = .ok (2 * (k + 1) * (k + 3))
    ∧ compute_n_pols 3 k = .ok (3 * (k + 1) * (k + 1) * (k + 2))
    ∧ ∀ d, d ≠ 1 → d ≠ 2 → d ≠ 3 → compute_n_pols d k = .error .unsupportedDimension := by
  refine ⟨rfl, by rw [compute_n_pols]; norm_num, by rw [compute_n_pols]; norm_num, ?_⟩
  intro d h1 h2 h3
  rw [compute_n_pols, if_neg h1, if_neg h2, if_neg h3]

/-- Witness for C3 at `k = 5` and the unsupported dimension `d = 4`. -/
theorem C3_witness :
    compute_n_pols 1 5 = .ok 6
    ∧ ((4 : Nat) ≠ 1 ∧ (4 : Nat) ≠ 2 ∧ (4 : Nat) ≠ 3)
    ∧ compute_n_pols 4 5 = .error .unsupportedDimension :=
  ⟨(C3_compute_n_pols_formula 5).1, ⟨by decide, by decide, by decide⟩,
    (C3_compute_n_pols_formula 5).2.2.2 4 (by decide) (by decide) (by decide)⟩

/-- C2: the claimed invariant `n_pols = dim * n_sub` fails on the code for
dim=1 and dim=3 (and no runtime check of it exists): for `k = 0`, dim=1 stores
`n_pols = 1` while the anisotropic space has `n_sub = 3`, and dim=3 stores
`n_pols = 6` while `dim * n_sub = 9`; only dim=2 satisfies the invariant.
`n_pols = compute_n_pols(k)` does hold by construction. -/
theorem C2_n_pols_dim_n_sub_mismatch :
    (okABF (mkPolynomialsABF 1 0)).n_pols = 1
    ∧ (okABF (mkPolynomialsABF 1 0)).polynomial_space.n = 3
    ∧ 1 * (okABF (mkPolynomialsABF 1 0)).polynomial_space.n
        ≠ (okABF (mkPolynomialsABF 1 0)).n_pols
    ∧ (okABF (mkPolynomialsABF 3 0)).n_pols = 6
    ∧ (okABF (mkPolynomialsABF 3 0)).polynomial_space.n = 3
    ∧ 3 * (okABF (mkPolynomialsABF 3 0)).polynomial_space.n
        ≠ (okABF (mkPolynomialsABF 3 0)).n_pols
    ∧ 2 * (okABF (mkPolynomialsABF 2 0)).polynomial_space.n
        = (okABF (mkPolynomialsABF 2 0)).n_pols
    ∧ compute_n_pols 1 0 = .ok (okABF (mkPolynomialsABF 1 0)).n_pols
    ∧ compute_n_pols 3 0 = .ok (okABF (mkPolynomialsABF 3 0)).n_pols := by
  decide

/-- C6: construction uses the complete Lagrange-equidistant basis of degree
`k+2` for direction 0, and for every direction `d ∈ [1, dim)` the complete
Legendre basis of degree 0 when `k = 0`, otherwise the complete
Lagrange-equidistant basis of degree `k`; the anisotropic space is built from
exactly these `dim` family lists. -/
theorem C6_constructor_families (dim k : Nat) (hdim : dim = 1 ∨ dim = 2 ∨ dim = 3)
    (abf : PolynomialsABF) (hmk : mkPolynomialsABF dim k = .ok abf) :
    abf.polynomial_space.pols.length = dim
    ∧ abf.polynomial_space.pols.getD 0 [] = LagrangeEquidistant.generate_complete_basis (k + 2)
    ∧ ∀ d, 1 ≤ d → d < dim →
        abf.polynomial_space.pols.getD d []
          = if k = 0 then Legendre.generate_complete_basis 0
            else LagrangeEquidistant.generate_complete_basis k := by
  obtain ⟨_, _, _, hpols⟩ := mk_fields dim k abf hmk
  rw [hpols]
  refine ⟨?_, rfl, ?_⟩
  · rw [List.length_cons, List.length_map, List.length_range]
    omega
  · intro d h1 h2
    obtain ⟨d', rfl⟩ : ∃ d', d = d' + 1 := ⟨d - 1, by omega⟩
    rw [List.getD_cons_succ]
    exact getD_range_map (dim - 1) _ d' [] (by omega)

/-- Witness for C6 at `dim = 3`, `k = 0`. -/
theorem C6_witness :
    ((3 : Nat) = 1 ∨ (3 : Nat) = 2 ∨ (3 : Nat) = 3)
    ∧ mkPolynomialsABF 3 0 = .ok (okABF (mkPolynomialsABF 3 0))
    ∧ ((okABF (mkPolynomialsABF 3 0)).polynomial_space.pols.length = 3
      ∧ (okABF (mkPolynomialsABF 3 0)).polynomial_space.pols.getD 0 []
          = LagrangeEquidistant.generate_complete_basis 2
      ∧ ∀ d, 1 ≤ d → d < 3 →
          (okABF (mkPolynomialsABF 3 0)).polynomial_space.pols.getD d []
            = if (0 : Nat) = 0 then Legendre.generate_complete_basis 0
              else LagrangeEquidistant.generate_complete_basis 0) :=
  ⟨by decide, by decide,
    C6_constructor_families 3 0 (by decide) (okABF (mkPolynomialsABF 3 0)) (by decide)⟩

/-- C4: if any of the three output containers has a length that is neither 0
nor `n_pols`, `compute` fails with the dimension-mismatch error; the checks
run before any write, so the failure leaves the caller's containers
untouched (in this embedding the error result is produced before any output
state is built). -/
theorem C4_dimension_mismatch (abf : PolynomialsABF) (pt : List ℚ)
    (v : List (List ℚ)) (g : List (List (List ℚ))) (h : List (List (List (List ℚ))))
    (scr : List ℚ × List (List ℚ) × List (List (List ℚ)))
    (hbad : ¬(v.length = abf.n_pols ∨ v.length = 0)
        ∨ ¬(g.length = abf.n_pols ∨ g.length = 0)
        ∨ ¬(h.length = abf.n_pols ∨ h.length = 0)) :
    abf.compute pt v g h scr = .error .dimensionMismatch := by
  simp only [PolynomialsABF.compute]
  rcases hbad with hb | hb | hb
  · rw [if_pos hb]
  · by_cases hv : ¬(v.length = abf.n_pols ∨ v.length = 0)
    · rw [if_pos hv]
    · rw [if_neg hv, if_pos hb]
  · by_cases hv : ¬(v.length = abf.n_pols ∨ v.length = 0)
    · rw [if_pos hv]
    · by_cases hg : ¬(g.length = abf.n_pols ∨ g.length = 0)
      · rw [if_neg hv, if_pos hg]
      · rw [if_neg hv, if_neg hg, if_pos hb]

/-- Witness for C4: `values` of length `n_pols - 1 = 5` (with valid `grads`
and `grad_grads`) is rejected with the dimension-mismatch error. -/
theorem C4_witness :
    (¬((zeroT1 5 2).length = (okABF (mkPolynomialsABF 2 0)).n_pols
        ∨ (zeroT1 5 2).length = 0)
      ∨ ¬((zeroT2 6 2).length = (okABF (mkPolynomialsABF 2 0)).n_pols
        ∨ (zeroT2 6 2).length = 0)
      ∨ ¬(([] : List (List (List (List ℚ)))).length = (okABF (mkPolynomialsABF 2 0)).n_pols
        ∨ ([] : List (List (List (List ℚ)))).length = 0))
    ∧ (okABF (mkPolynomialsABF 2 0)).compute [1/2, 1/2] (zeroT1 5 2) (zeroT2 6 2) []
        ([], [], []) = .error .dimensionMismatch :=
  ⟨Or.inl (by decide),
    C4_dimension_mismatch (okABF (mkPolynomialsABF 2 0)) [1/2, 1/2] (zeroT1 5 2)
      (zeroT2 6 2) [] ([], [], []) (Or.inl (by decide))⟩

lemma computeLoop_scr_irrelevant (sp : AnisotropicPolynomials) (dim ns : Nat) (pt : List ℚ) :
    ∀ (rem d : Nat) (sv sv' : List ℚ) (sg sg' : List (List ℚ))
      (sh sh' : List (List (List ℚ)))
      (o : List (List ℚ) × List (List (List ℚ)) × List (List (List (List ℚ)))),
      sv.length = sv'.length → sg.length = sg'.length → sh.length = sh'.length →
      computeLoop sp dim ns pt rem d (sv, sg, sh) o
        = computeLoop sp dim ns pt rem d (sv', sg', sh') o := by
  intro rem
  induction rem with
  | zero =>
    intro d sv sv' sg sg' sh sh' o _ _ _
    rw [computeLoop, computeLoop]
  | succ rem ih =>
    intro d sv sv' sg sg' sh sh' o hsv hsg hsh
    obtain ⟨v, g, h⟩ := o
    simp only [computeLoop]
    have hfv : fillValues sv sp (rotatePoint dim pt d)
        = fillValues sv' sp (rotatePoint dim pt d) := by
      rw [fillValues, fillValues, hsv]
    have hfg : fillGrads sg sp dim (rotatePoint dim pt d)
        = fillGrads sg' sp dim (rotatePoint dim pt d) := by
      rw [fillGrads, fillGrads, hsg]
    have hfh : fillHessians sh sp dim (rotatePoint dim pt d)
        = fillHessians sh' sp dim (rotatePoint dim pt d) := by
      rw [fillHessians, fillHessians, hsh]
    rw [hfv, hfg, hfh]

/-- C9: `evaluate` is deterministic and carries no observable state between
calls: its result does not depend on the contents of the mutable scratch
buffers (`p_values`, `p_grads`, `p_grad_grads`) left over from earlier calls,
so two consecutive calls with identical inputs produce identical outputs.
Stated for every `PolynomialsABF` instance, hence in particular for every
constructed `dim ∈ {1,2,3}` and degree `k`. -/
theorem C9_deterministic_no_hidden_state (abf : PolynomialsABF) (pt : List ℚ)
    (v : List (List ℚ)) (g : List (List (List ℚ))) (h : List (List (List (List ℚ))))
    (scr scr' : List ℚ × List (List ℚ) × List (List (List ℚ))) :
    abf.compute pt v g h scr = abf.compute pt v g h scr' := by
  simp only [PolynomialsABF.compute]
  split
  · rfl
  split
  · rfl
  split
  · rfl
  rw [computeLoop_scr_irrelevant abf.polynomial_space abf.dim abf.polynomial_space.n pt
    abf.dim 0 _ (vectorResize scr'.1 (if v.length = 0 then 0 else abf.polynomial_space.n) 0)
    _ (vectorResize scr'.2.1 (if g.length = 0 then 0 else abf.polynomial_space.n) [])
    _ (vectorResize scr'.2.2 (if h.length = 0 then 0 else abf.polynomial_space.n) [])
    (v, g, h) (by rw [vectorResize_length, vectorResize_length])
    (by rw [vectorResize_length, vectorResize_length])
    (by rw [vectorResize_length, vectorResize_length])]

/-- C1: for every constructed `dim ∈ {1,2,3}` and degree `k`, whenever
`compute` completes, each direction `d` evaluated the scalar space at the
rotated point `p` with `p(c) = unit_point((c+d) % dim)`, and the outputs
satisfy `grads[i + d*n_sub][d][(d1+d) % dim] = p_grads[i][d1]` and
`grad_grads[i + d*n_sub][d][(d1+d) % dim][(d2+d) % dim] = p_grad_grads[i][d1][d2]`,
where the scratch entries are the gradient and Hessian of the `i`-th scalar
basis function at the rotated point: the derivative indices are un-rotated
back to original coordinates in row `d` of the output tensors. -/
theorem C1_rotate_scatter_unrotate (dim k : Nat) (hdim : dim = 1 ∨ dim = 2 ∨ dim = 3)
    (abf : PolynomialsABF) (hmk : mkPolynomialsABF dim k = .ok abf)
    (pt : List ℚ) (v : List (List ℚ)) (g : List (List (List ℚ)))
    (h : List (List (List (List ℚ)))) (scr : List ℚ × List (List ℚ) × List (List (List ℚ)))
    (out : List (List ℚ) × List (List (List ℚ)) × List (List (List (List ℚ))))
    (hok : abf.compute pt v g h scr = .ok out)
    (hgl : g.length ≠ 0) (hhl : h.length ≠ 0)
    (hgs1 : ∀ x ∈ g, x.length = dim) (hgs2 : ∀ x ∈ g, ∀ r ∈ x, r.length = dim)
    (hhs1 : ∀ x ∈ h, x.length = dim) (hhs2 : ∀ x ∈ h, ∀ s ∈ x, s.length = dim)
    (hhs3 : ∀ x ∈ h, ∀ s ∈ x, ∀ r ∈ s, r.length = dim) :
    ∀ d i d1 d2, d < dim → i < abf.polynomial_space.n → d1 < dim → d2 < dim →
      (∀ c, c < dim → (rotatePoint dim pt d).getD c 0 = pt.getD ((c + d) % dim) 0)
      ∧ ((out.2.1.getD (i + d * abf.polynomial_space.n) []).getD d []).getD ((d1 + d) % dim) 0
          = abf.polynomial_space.basisGrad i d1 (rotatePoint dim pt d)
      ∧ ((((out.2.2.getD (i + d * abf.polynomial_space.n) []).getD d []).getD ((d1 + d) % dim)
            []).getD ((d2 + d) % dim) 0)
          = abf.polynomial_space.basisHess i d1 d2 (rotatePoint dim pt d) := by
  obtain ⟨hd, -, -, -⟩ := mk_fields dim k abf hmk
  subst hd
  have hns := mk_n_pos abf.dim k abf hmk
  have hdim0 : 0 < abf.dim := by rcases hdim with h0 | h0 | h0 <;> omega
  obtain ⟨-, -, -, -, -, -, -, -, -, hwg, hwh, -, hbg, hbh⟩ :=
    compute_ok_char abf pt v g h scr out hns hdim0 hok
  intro d i d1 d2 hdlt hilt h1lt h2lt
  refine ⟨?_, ?_, ?_⟩
  · intro c hc
    rw [rotatePoint]
    exact getD_range_map _ _ _ _ hc
  · have hidx : i + d * abf.polynomial_space.n = d * abf.polynomial_space.n + i :=
      Nat.add_comm _ _
    rw [hidx, hwg hgl d i hdlt hilt]
    have hjlen : d * abf.polynomial_space.n + i < g.length :=
      lt_of_lt_of_le (block_lt d i abf.polynomial_space.n abf.dim hdlt hilt) (hbg hgl)
    have hmem : g.getD (d * abf.polynomial_space.n + i) [] ∈ g := getD_mem g _ [] hjlen
    have hel : (g.getD (d * abf.polynomial_space.n + i) []).length = abf.dim := hgs1 _ hmem
    have hrmem : (g.getD (d * abf.polynomial_space.n + i) []).getD d []
        ∈ g.getD (d * abf.polynomial_space.n + i) [] :=
      getD_mem _ d [] (by rw [hel]; exact hdlt)
    have hrl : ((g.getD (d * abf.polynomial_space.n + i) []).getD d []).length = abf.dim :=
      hgs2 _ hmem _ hrmem
    rw [gradEntryWrite_getD_write abf.dim d _ _ (by rw [hel]; exact hdlt) hrl d1 h1lt]
    exact getD_range_map abf.dim _ d1 0 h1lt
  · have hidx : i + d * abf.polynomial_space.n = d * abf.polynomial_space.n + i :=
      Nat.add_comm _ _
    rw [hidx, hwh hhl d i hdlt hilt]
    have hjlen : d * abf.polynomial_space.n + i < h.length :=
      lt_of_lt_of_le (block_lt d i abf.polynomial_space.n abf.dim hdlt hilt) (hbh hhl)
    have hmem : h.getD (d * abf.polynomial_space.n + i) [] ∈ h := getD_mem h _ [] hjlen
    have hel : (h.getD (d * abf.polynomial_space.n + i) []).length = abf.dim := hhs1 _ hmem
    have hsmem : (h.getD (d * abf.polynomial_space.n + i) []).getD d []
        ∈ h.getD (d * abf.polynomial_space.n + i) [] :=
      getD_mem _ d [] (by rw [hel]; exact hdlt)
    have hsl : ((h.getD (d * abf.polynomial_space.n + i) []).getD d []).length = abf.dim :=
      hhs2 _ hmem _ hsmem
    have hrows : ∀ r, r < abf.dim →
        (((h.getD (d * abf.polynomial_space.n + i) []).getD d []).getD r []).length
          = abf.dim := by
      intro r hr
      have hrm : ((h.getD (d * abf.polynomial_space.n + i) []).getD d []).getD r []
          ∈ (h.getD (d * abf.polynomial_space.n + i) []).getD d [] :=
        getD_mem _ r [] (by rw [hsl]; exact hr)
      exact hhs3 _ hmem _ hsmem _ hrm
    rw [hessEntryWrite_getD_write abf.dim d _ _ (by rw [hel]; exact hdlt) hsl hrows d1 d2
      h1lt h2lt]
    rw [getD_range_map abf.dim _ d1 [] h1lt]
    exact getD_range_map abf.dim _ d2 0 h2lt

/-- Witness for C1: the degree-0, dim-2 instance evaluated at `(1/3, 2/7)`
with zero-initialized full-length containers, checked at `d = 1`, `i = 2`,
`d1 = 0`, `d2 = 1`. -/
theorem C1_witness :
    ((2 : Nat) = 1 ∨ (2 : Nat) = 2 ∨ (2 : Nat) = 3)
    ∧ mkPolynomialsABF 2 0 = .ok (okABF (mkPolynomialsABF 2 0))
    ∧ (okABF (mkPolynomialsABF 2 0)).compute [1/3, 2/7] (zeroT1 6 2) (zeroT2 6 2) (zeroT3 6 2)
        ([], [], [])
        = .ok (okOut ((okABF (mkPolynomialsABF 2 0)).compute [1/3, 2/7] (zeroT1 6 2)
            (zeroT2 6 2) (zeroT3 6 2) ([], [], [])))
    ∧ ((∀ c, c < 2 →
          (rotatePoint 2 [1/3, 2/7] 1).getD c 0 = [(1 : ℚ)/3, 2/7].getD ((c + 1) % 2) 0)
        ∧ (((okOut ((okABF (mkPolynomialsABF 2 0)).compute [1/3, 2/7] (zeroT1 6 2) (zeroT2 6 2)
              (zeroT3 6 2) ([], [], []))).2.1.getD
                (2 + 1 * (okABF (mkPolynomialsABF 2 0)).polynomial_space.n) []).getD 1
              []).getD ((0 + 1) % 2) 0
            = (okABF (mkPolynomialsABF 2 0)).polynomial_space.basisGrad 2 0
                (rotatePoint 2 [1/3, 2/7] 1)
        ∧ ((((okOut ((okABF (mkPolynomialsABF 2 0)).compute [1/3, 2/7] (zeroT1 6 2) (zeroT2 6 2)
              (zeroT3 6 2) ([], [], []))).2.2.getD
                (2 + 1 * (okABF (mkPolynomialsABF 2 0)).polynomial_space.n) []).getD 1
              []).getD ((0 + 1) % 2) []).getD ((1 + 1) % 2) 0
            = (okABF (mkPolynomialsABF 2 0)).polynomial_space.basisHess 2 0 1
                (rotatePoint 2 [1/3, 2/7] 1)) :=
  ⟨by decide, by decide, by decide,
    C1_rotate_scatter_unrotate 2 0 (by decide) (okABF (mkPolynomialsABF 2 0)) (by decide)
      [1/3, 2/7] (zeroT1 6 2) (zeroT2 6 2) (zeroT3 6 2) ([], [], [])
      (okOut ((okABF (mkPolynomialsABF 2 0)).compute [1/3, 2/7] (zeroT1 6 2) (zeroT2 6 2)
        (zeroT3 6 2) ([], [], [])))
      (by decide) (by decide) (by decide) (by decide) (by decide) (by decide) (by decide)
      (by decide) 1 2 0 1 (by decide) (by decide) (by decide) (by decide)⟩

/-- C10: `compute` never writes output entries it does not own: under a
successful run, for every output index `j` (owned by direction `j / n_sub`)
it writes only vector component `j / n_sub` of `values[j]`, only row
`j / n_sub` of `grads[j]`, and only slice `j / n_sub` of `grad_grads[j]`; all
other components, rows and slices retain exactly their prior contents, and a
container passed with length 0 is returned unchanged (in particular nothing
is zero-initialized). -/
theorem C10_frame_no_foreign_writes (dim k : Nat) (hdim : dim = 1 ∨ dim = 2 ∨ dim = 3)
    (abf : PolynomialsABF) (hmk : mkPolynomialsABF dim k = .ok abf)
    (pt : List ℚ) (v : List (List ℚ)) (g : List (List (List ℚ)))
    (h : List (List (List (List ℚ)))) (scr : List ℚ × List (List ℚ) × List (List (List ℚ)))
    (out : List (List ℚ) × List (List (List ℚ)) × List (List (List (List ℚ))))
    (hok : abf.compute pt v g h scr = .ok out) :
    (∀ j c, c ≠ j / abf.polynomial_space.n →
        (out.1.getD j []).getD c 0 = (v.getD j []).getD c 0)
    ∧ (∀ j r, r ≠ j / abf.polynomial_space.n →
        (out.2.1.getD j []).getD r [] = (g.getD j []).getD r [])
    ∧ (∀ j r, r ≠ j / abf.polynomial_space.n →
        (out.2.2.getD j []).getD r [] = (h.getD j []).getD r [])
    ∧ (v.length = 0 → out.1 = v)
    ∧ (g.length = 0 → out.2.1 = g)
    ∧ (h.length = 0 → out.2.2 = h) := by
  obtain ⟨hd, -, -, -⟩ := mk_fields dim k abf hmk
  subst hd
  have hns := mk_n_pos abf.dim k abf hmk
  have hdim0 : 0 < abf.dim := by rcases hdim with h0 | h0 | h0 <;> omega
  obtain ⟨-, -, hev, heg, heh, huv, hug, huh, hwv, hwg, hwh, -, -, -⟩ :=
    compute_ok_char abf pt v g h scr out hns hdim0 hok
  refine ⟨?_, ?_, ?_, hev, heg, heh⟩
  · intro j c hc
    by_cases hl : v.length = 0
    · rw [hev hl]
    · by_cases hj : abf.dim * abf.polynomial_space.n ≤ j
      · rw [huv j [] hj]
      · have hjlt : j < abf.dim * abf.polynomial_space.n := by omega
        have ht : j % abf.polynomial_space.n < abf.polynomial_space.n := Nat.mod_lt _ hns
        have he : j / abf.polynomial_space.n < abf.dim := by
          rw [Nat.div_lt_iff_lt_mul hns]
          exact hjlt
        have hw := hwv hl (j / abf.polynomial_space.n) (j % abf.polynomial_space.n) he ht
        have hjeq : j / abf.polynomial_space.n * abf.polynomial_space.n
            + j % abf.polynomial_space.n = j := by
          rw [Nat.mul_comm]
          exact Nat.div_add_mod j abf.polynomial_space.n
        rw [hjeq] at hw
        rw [hw]
        exact getD_set_other _ _ _ _ _ (fun he2 => hc he2.symm)
  · intro j r hr
    by_cases hl : g.length = 0
    · rw [heg hl]
    · by_cases hj : abf.dim * abf.polynomial_space.n ≤ j
      · rw [hug j [] hj]
      · have hjlt : j < abf.dim * abf.polynomial_space.n := by omega
        have ht : j % abf.polynomial_space.n < abf.polynomial_space.n := Nat.mod_lt _ hns
        have he : j / abf.polynomial_space.n < abf.dim := by
          rw [Nat.div_lt_iff_lt_mul hns]
          exact hjlt
        have hw := hwg hl (j / abf.polynomial_space.n) (j % abf.polynomial_space.n) he ht
        have hjeq : j / abf.polynomial_space.n * abf.polynomial_space.n
            + j % abf.polynomial_space.n = j := by
          rw [Nat.mul_comm]
          exact Nat.div_add_mod j abf.polynomial_space.n
        rw [hjeq] at hw
        rw [hw]
        exact gradEntryWrite_getD_ne abf.dim _ _ _ r [] hr
  · intro j r hr
    by_cases hl : h.length = 0
    · rw [heh hl]
    · by_cases hj : abf.dim * abf.polynomial_space.n ≤ j
      · rw [huh j [] hj]
      · have hjlt : j < abf.dim * abf.polynomial_space.n := by omega
        have ht : j % abf.polynomial_space.n < abf.polynomial_space.n := Nat.mod_lt _ hns
        have he : j / abf.polynomial_space.n < abf.dim := by
          rw [Nat.div_lt_iff_lt_mul hns]
          exact hjlt
        have hw := hwh hl (j / abf.polynomial_space.n) (j % abf.polynomial_space.n) he ht
        have hjeq : j / abf.polynomial_space.n * abf.polynomial_space.n
            + j % abf.polynomial_space.n = j := by
          rw [Nat.mul_comm]
          exact Nat.div_add_mod j abf.polynomial_space.n
        rw [hjeq] at hw
        rw [hw]
        exact hessEntryWrite_getD_ne abf.dim _ _ _ r [] hr

/-- Witness for C10: a run with sentinel contents `[9, 8]` in every value
entry, full-length grads, and empty grad_grads; component 1 of value entry 1
(not owned by direction `1 / 3 = 0`) keeps its prior content `8`, and the
empty container comes back unchanged. -/
theorem C10_witness :
    mkPolynomialsABF 2 0 = .ok (okABF (mkPolynomialsABF 2 0))
    ∧ (okABF (mkPolynomialsABF 2 0)).compute [1/3, 2/7] (List.replicate 6 [(9 : ℚ), 8])
        (zeroT2 6 2) [] ([], [], [])
        = .ok (okOut ((okABF (mkPolynomialsABF 2 0)).compute [1/3, 2/7]
            (List.replicate 6 [(9 : ℚ), 8]) (zeroT2 6 2) [] ([], [], [])))
    ∧ ((1 : Nat) ≠ 1 / (okABF (mkPolynomialsABF 2 0)).polynomial_space.n)
    ∧ ((okOut ((okABF (mkPolynomialsABF 2 0)).compute [1/3, 2/7]
          (List.replicate 6 [(9 : ℚ), 8]) (zeroT2 6 2) [] ([], [], []))).1.getD 1 []).getD 1 0
        = ((List.replicate 6 [(9 : ℚ), 8]).getD 1 []).getD 1 0
    ∧ (okOut ((okABF (mkPolynomialsABF 2 0)).compute [1/3, 2/7]
        (List.replicate 6 [(9 : ℚ), 8]) (zeroT2 6 2) [] ([], [], []))).2.2
        = ([] : List (List (List (List ℚ)))) :=
  ⟨by decide, by decide, by decide,
    (C10_frame_no_foreign_writes 2 0 (by decide) (okABF (mkPolynomialsABF 2 0)) (by decide)
      [1/3, 2/7] (List.replicate 6 [(9 : ℚ), 8]) (zeroT2 6 2) [] ([], [], [])
      (okOut ((okABF (mkPolynomialsABF 2 0)).compute [1/3, 2/7]
        (List.replicate 6 [(9 : ℚ), 8]) (zeroT2 6 2) [] ([], [], []))) (by decide)).1
      1 1 (by decide),
    (C10_frame_no_foreign_writes 2 0 (by decide) (okABF (mkPolynomialsABF 2 0)) (by decide)
      [1/3, 2/7] (List.replicate 6 [(9 : ℚ), 8]) (zeroT2 6 2) [] ([], [], [])
      (okOut ((okABF (mkPolynomialsABF 2 0)).compute [1/3, 2/7]
        (List.replicate 6 [(9 : ℚ), 8]) (zeroT2 6 2) [] ([], [], []))) (by decide)).2.2.2.2.2
      rfl⟩

lemma getD_replicate {α : Type} (n j : Nat) (x z : α) (h : j < n) :
    (List.replicate n x).getD j z = x := by
  induction n generalizing j with
  | zero => cases h
  | succ n ih =>
    rw [List.replicate_succ]
    match j with
    | 0 => rfl
    | j' + 1 =>
      rw [List.getD_cons_succ]
      exact ih j' (by omega)

/-- C5 (amended to dim = 2): with `values` of length `n_pols` and empty
`grads`/`hessians`, `compute` succeeds and returns the gradient and Hessian
containers unchanged (empty); it stores
`values[i + d*n_sub][d] = `the `i`-th scalar basis value at the rotated
point, and writes no other component of any entry, so each basis function
has at most one nonzero component, at index `i / n_sub`, when the caller
zero-initializes.  (For dim ∈ {1,3} the original claim fails: there
`dim * n_sub ≠ n_pols` and the scatter runs out of bounds, see C2/C7.) -/
theorem C5_values_only_dim2 (k : Nat) (abf : PolynomialsABF)
    (hmk : mkPolynomialsABF 2 k = .ok abf) (pt : List ℚ) (v : List (List ℚ))
    (scr : List ℚ × List (List ℚ) × List (List (List ℚ)))
    (hvlen : v.length = abf.n_pols) (hvsh : ∀ x ∈ v, x.length = 2) :
    abf.compute pt v [] [] scr = .ok (okV (abf.compute pt v [] [] scr), [], [])
    ∧ (∀ d i, d < 2 → i < abf.polynomial_space.n →
        ((okV (abf.compute pt v [] [] scr)).getD (i + d * abf.polynomial_space.n) []).getD d 0
          = abf.polynomial_space.basisValue i (rotatePoint 2 pt d))
    ∧ (∀ j c, c ≠ j / abf.polynomial_space.n →
        ((okV (abf.compute pt v [] [] scr)).getD j []).getD c 0 = (v.getD j []).getD c 0) := by
  obtain ⟨out, hout⟩ :=
    compute2_isOk k abf hmk pt v [] [] scr (Or.inl hvlen) (Or.inr rfl) (Or.inr rfl)
  obtain ⟨hnp2, hn2, hdim2⟩ := mk_dim2_n_pols k abf hmk
  have hns := mk_n_pos 2 k abf hmk
  have hdim0 : 0 < abf.dim := by rw [hdim2]; omega
  have hl : v.length ≠ 0 := by rw [hvlen, hnp2]; positivity
  obtain ⟨-, -, -, heg, heh, huv, -, -, hwv, -, -, hbv, -, -⟩ :=
    compute_ok_char abf pt v [] [] scr out hns hdim0 hout
  have hokv : okV (abf.compute pt v [] [] scr) = out.1 := by
    rw [hout]
    rfl
  refine ⟨?_, ?_, ?_⟩
  · rw [hout]
    show Except.ok out
      = Except.ok (out.1, ([] : List (List (List ℚ))), ([] : List (List (List (List ℚ)))))
    rw [← heg rfl, ← heh rfl]
  · intro d i hd hi
    rw [hokv]
    have hw := hwv hl d i (by rw [hdim2]; exact hd) hi
    rw [hdim2] at hw
    have hidx : i + d * abf.polynomial_space.n = d * abf.polynomial_space.n + i :=
      Nat.add_comm _ _
    rw [hidx, hw]
    have hjlen : d * abf.polynomial_space.n + i < v.length := by
      have hb := hbv hl
      rw [hdim2] at hb
      exact lt_of_lt_of_le (block_lt d i abf.polynomial_space.n 2 hd hi) hb
    have hmem : v.getD (d * abf.polynomial_space.n + i) [] ∈ v := getD_mem v _ [] hjlen
    exact getD_set_self _ _ _ _ (by rw [hvsh _ hmem]; exact hd)
  · intro j c hc
    rw [hokv]
    by_cases hj : abf.dim * abf.polynomial_space.n ≤ j
    · rw [huv j [] hj]
    · have hjlt : j < abf.dim * abf.polynomial_space.n := by omega
      have ht : j % abf.polynomial_space.n < abf.polynomial_space.n := Nat.mod_lt _ hns
      have he : j / abf.polynomial_space.n < abf.dim := by
        rw [Nat.div_lt_iff_lt_mul hns]
        exact hjlt
      have hw := hwv hl (j / abf.polynomial_space.n) (j % abf.polynomial_space.n) he ht
      have hjeq : j / abf.polynomial_space.n * abf.polynomial_space.n
          + j % abf.polynomial_space.n = j := by
        rw [Nat.mul_comm]
        exact Nat.div_add_mod j abf.polynomial_space.n
      rw [hjeq] at hw
      rw [hw]
      exact getD_set_other _ _ _ _ _ (fun he2 => hc he2.symm)

/-- Witness for C5's amended theorem at `k = 0`, `pt = (1/3, 2/7)`, checked
at direction 1, scalar index 2, and at the untouched component of entry 1. -/
theorem C5_witness :
    mkPolynomialsABF 2 0 = .ok (okABF (mkPolynomialsABF 2 0))
    ∧ (zeroT1 6 2).length = (okABF (mkPolynomialsABF 2 0)).n_pols
    ∧ ((okABF (mkPolynomialsABF 2 0)).compute [1/3, 2/7] (zeroT1 6 2) [] [] ([], [], [])
        = .ok (okV ((okABF (mkPolynomialsABF 2 0)).compute [1/3, 2/7] (zeroT1 6 2) [] []
            ([], [], [])), [], []))
    ∧ ((okV ((okABF (mkPolynomialsABF 2 0)).compute [1/3, 2/7] (zeroT1 6 2) [] []
          ([], [], []))).getD (2 + 1 * (okABF (mkPolynomialsABF 2 0)).polynomial_space.n)
          []).getD 1 0
        = (okABF (mkPolynomialsABF 2 0)).polynomial_space.basisValue 2
            (rotatePoint 2 [1/3, 2/7] 1) :=
  ⟨by decide, by decide,
    (C5_values_only_dim2 0 (okABF (mkPolynomialsABF 2 0)) (by decide) [1/3, 2/7] (zeroT1 6 2)
      ([], [], []) (by decide) (by decide)).1,
    (C5_values_only_dim2 0 (okABF (mkPolynomialsABF 2 0)) (by decide) [1/3, 2/7] (zeroT1 6 2)
      ([], [], []) (by decide) (by decide)).2.1 1 2 (by decide) (by decide)⟩

/-- C5 counterexample: the claim as stated requires *exactly one* nonzero
component per basis function for every dim ∈ {1,2,3} and every point; at
dim=2, k=0, point `(1, 1/2)` the scalar factor of basis function 0 vanishes
(its direction-0 Lagrange factor is zero at `x = 1`), so the stored
basis-function value is the zero vector `[0, 0]` — no component is nonzero. -/
theorem C5_counterexample :
    (okV ((okABF (mkPolynomialsABF 2 0)).compute [1, 1/2] (zeroT1 6 2) [] []
      ([], [], []))).getD 0 [] = [(0 : ℚ), 0] := by
  decide

/-- C7 (code-bug evidence): for dim=1, k=0 the constructor stores
`n_pols = 1` but builds the scalar space from the Lagrange basis of degree 2
(`n_sub = 3`): `compute` with `values`/`grads` of length 1 overruns the
containers (undefined behaviour in C++, an explicit failure here) instead of
succeeding, and the first scalar basis value at `1/2` is `0`, not the
constant `1.0` the claim promises. -/
theorem C7_dim1_k0_out_of_bounds :
    (okABF (mkPolynomialsABF 1 0)).n_pols = 1
    ∧ (okABF (mkPolynomialsABF 1 0)).compute [1/2] [[0]] [[[0]]] [] ([], [], [])
        = .error .outOfBounds
    ∧ (okABF (mkPolynomialsABF 1 0)).polynomial_space.basisValue 0 [1/2] = 0 := by
  decide

/-- C8: for dim=2, k=1, the direction-1 block evaluated at `(a, b)` agrees
with the direction-0 block evaluated at the swapped point `(b, a)`, up to the
cyclic rotation of the vector component (1 vs 0) and of the derivative
indices (`(d1+1) % 2`, `(d2+1) % 2` vs `d1`, `d2`): the construction is
rotation-consistent by design. -/
theorem C8_rotation_symmetry (a b : ℚ) (i d1 d2 : Nat) (hi : i < 8) (h1 : d1 < 2)
    (h2 : d2 < 2) :
    ((okV (abf21eval a b)).getD (i + 8) []).getD 1 0
        = ((okV (abf21eval b a)).getD i []).getD 0 0
    ∧ (((okG (abf21eval a b)).getD (i + 8) []).getD 1 []).getD ((d1 + 1) % 2) 0
        = (((okG (abf21eval b a)).getD i []).getD 0 []).getD d1 0
    ∧ ((((okH (abf21eval a b)).getD (i + 8) []).getD 1 []).getD ((d1 + 1) % 2) []).getD
          ((d2 + 1) % 2) 0
        = ((((okH (abf21eval b a)).getD i []).getD 0 []).getD d1 []).getD d2 0 := by
  have hmk : mkPolynomialsABF 2 1 = .ok abf21 := by decide
  have hns8 : abf21.polynomial_space.n = 8 := by decide
  have hdim2 : abf21.dim = 2 := by decide
  have hrot : rotatePoint 2 [a, b] 1 = rotatePoint 2 [b, a] 0 := rfl
  obtain ⟨outA, houtA⟩ := compute2_isOk 1 abf21 hmk [a, b] (zeroT1 16 2) (zeroT2 16 2)
    (zeroT3 16 2) ([], [], []) (Or.inl (by decide)) (Or.inl (by decide)) (Or.inl (by decide))
  obtain ⟨outB, houtB⟩ := compute2_isOk 1 abf21 hmk [b, a] (zeroT1 16 2) (zeroT2 16 2)
    (zeroT3 16 2) ([], [], []) (Or.inl (by decide)) (Or.inl (by decide)) (Or.inl (by decide))
  obtain ⟨-, -, -, -, -, -, -, -, hwvA, hwgA, hwhA, -, -, -⟩ :=
    compute_ok_char abf21 [a, b] (zeroT1 16 2) (zeroT2 16 2) (zeroT3 16 2) ([], [], []) outA
      (by decide) (by decide) houtA
  obtain ⟨-, -, -, -, -, -, -, -, hwvB, hwgB, hwhB, -, -, -⟩ :=
    compute_ok_char abf21 [b, a] (zeroT1 16 2) (zeroT2 16 2) (zeroT3 16 2) ([], [], []) outB
      (by decide) (by decide) houtB
  have hVA : okV (abf21eval a b) = outA.1 := by
    rw [show abf21eval a b = Except.ok outA from houtA]
    rfl
  have hVB : okV (abf21eval b a) = outB.1 := by
    rw [show abf21eval b a = Except.ok outB from houtB]
    rfl
  have hGA : okG (abf21eval a b) = outA.2.1 := by
    rw [show abf21eval a b = Except.ok outA from houtA]
    rfl
  have hGB : okG (abf21eval b a) = outB.2.1 := by
    rw [show abf21eval b a = Except.ok outB from houtB]
    rfl
  have hHA : okH (abf21eval a b) = outA.2.2 := by
    rw [show abf21eval a b = Except.ok outA from houtA]
    rfl
  have hHB : okH (abf21eval b a) = outB.2.2 := by
    rw [show abf21eval b a = Except.ok outB from houtB]
    rfl
  have hilt : i < abf21.polynomial_space.n := by rw [hns8]; exact hi
  have h1d : 1 < abf21.dim := by rw [hdim2]; omega
  have h0d : 0 < abf21.dim := by rw [hdim2]; omega
  have hidxA : i + 8 = 1 * abf21.polynomial_space.n + i := by rw [hns8]; omega
  have hidxB : i = 0 * abf21.polynomial_space.n + i := by omega
  have hjA : 1 * abf21.polynomial_space.n + i < 16 := by rw [hns8]; omega
  have hjB : 0 * abf21.polynomial_space.n + i < 16 := by rw [hns8]; omega
  have hz1A : (zeroT1 16 2).getD (1 * abf21.polynomial_space.n + i) []
      = List.replicate 2 (0 : ℚ) := by
    rw [zeroT1]
    exact getD_replicate 16 _ _ _ hjA
  have hz1B : (zeroT1 16 2).getD (0 * abf21.polynomial_space.n + i) []
      = List.replicate 2 (0 : ℚ) := by
    rw [zeroT1]
    exact getD_replicate 16 _ _ _ hjB
  have hz2A : (zeroT2 16 2).getD (1 * abf21.polynomial_space.n + i) []
      = List.replicate 2 (List.replicate 2 (0 : ℚ)) := by
    rw [zeroT2]
    exact getD_replicate 16 _ _ _ hjA
  have hz2B : (zeroT2 16 2).getD (0 * abf21.polynomial_space.n + i) []
      = List.replicate 2 (List.replicate 2 (0 : ℚ)) := by
    rw [zeroT2]
    exact getD_replicate 16 _ _ _ hjB
  have hz3A : (zeroT3 16 2).getD (1 * abf21.polynomial_space.n + i) []
      = List.replicate 2 (List.replicate 2 (List.replicate 2 (0 : ℚ))) := by
    rw [zeroT3]
    exact getD_replicate 16 _ _ _ hjA
  have hz3B : (zeroT3 16 2).getD (0 * abf21.polynomial_space.n + i) []
      = List.replicate 2 (List.replicate 2 (List.replicate 2 (0 : ℚ))) := by
    rw [zeroT3]
    exact getD_replicate 16 _ _ _ hjB
  refine ⟨?_, ?_, ?_⟩
  · rw [hVA, hVB, hidxA]
    conv_rhs => rw [hidxB]
    rw [hwvA (by decide) 1 i h1d hilt, hwvB (by decide) 0 i h0d hilt, hz1A, hz1B, hdim2, hrot]
    rw [getD_set_self _ _ _ _ (by rw [List.length_replicate]; omega),
      getD_set_self _ _ _ _ (by rw [List.length_replicate]; omega)]
  · rw [hGA, hGB, hidxA]
    conv_rhs => rw [hidxB]
    rw [hwgA (by decide) 1 i h1d hilt, hwgB (by decide) 0 i h0d hilt, hz2A, hz2B, hdim2, hrot]
    have hwa := gradEntryWrite_getD_write 2 1
      ((List.range 2).map (fun q => abf21.polynomial_space.basisGrad i q (rotatePoint 2 [b, a] 0)))
      (List.replicate 2 (List.replicate 2 (0 : ℚ)))
      (by rw [List.length_replicate]; omega)
      (by rw [getD_replicate 2 1 _ _ (by omega), List.length_replicate]) d1 h1
    have hwb := gradEntryWrite_getD_write 2 0
      ((List.range 2).map (fun q => abf21.polynomial_space.basisGrad i q (rotatePoint 2 [b, a] 0)))
      (List.replicate 2 (List.replicate 2 (0 : ℚ)))
      (by rw [List.length_replicate]; omega)
      (by rw [getD_replicate 2 0 _ _ (by omega), List.length_replicate]) d1 h1
    rw [show (d1 + 0) % 2 = d1 from by omega] at hwb
    rw [hwa, hwb]
  · rw [hHA, hHB, hidxA]
    conv_rhs => rw [hidxB]
    rw [hwhA (by decide) 1 i h1d hilt, hwhB (by decide) 0 i h0d hilt, hz3A, hz3B, hdim2, hrot]
    have hrows : ∀ d : Nat, d < 2 → ∀ r, r < 2 →
        (((List.replicate 2 (List.replicate 2 (List.replicate 2 (0 : ℚ)))).getD d []).getD r
          []).length = 2 := by
      intro d hd r hr
      rw [getD_replicate 2 d _ _ hd, getD_replicate 2 r _ _ hr, List.length_replicate]
    have hwa := hessEntryWrite_getD_write 2 1
      ((List.range 2).map (fun q => (List.range 2).map
        (fun w => abf21.polynomial_space.basisHess i q w (rotatePoint 2 [b, a] 0))))
      (List.replicate 2 (List.replicate 2 (List.replicate 2 (0 : ℚ))))
      (by rw [List.length_replicate]; omega)
      (by rw [getD_replicate 2 1 _ _ (by omega), List.length_replicate])
      (hrows 1 (by omega)) d1 d2 h1 h2
    have hwb := hessEntryWrite_getD_write 2 0
      ((List.range 2).map (fun q => (List.range 2).map
        (fun w => abf21.polynomial_space.basisHess i q w (rotatePoint 2 [b, a] 0))))
      (List.replicate 2 (List.replicate 2 (List.replicate 2 (0 : ℚ))))
      (by rw [List.length_replicate]; omega)
      (by rw [getD_replicate 2 0 _ _ (by omega), List.length_replicate])
      (hrows 0 (by omega)) d1 d2 h1 h2
    rw [show (d1 + 0) % 2 = d1 from by omega, show (d2 + 0) % 2 = d2 from by omega] at hwb
    rw [hwa, hwb]

/-- Witness for C8 at `(a, b) = (0, 1)`, `i = 3`, `d1 = 1`, `d2 = 0`. -/
theorem C8_witness :
    ((3 : Nat) < 8 ∧ (1 : Nat) < 2 ∧ (0 : Nat) < 2)
    ∧ (((okV (abf21eval 0 1)).getD (3 + 8) []).getD 1 0
          = ((okV (abf21eval 1 0)).getD 3 []).getD 0 0
        ∧ (((okG (abf21eval 0 1)).getD (3 + 8) []).getD 1 []).getD ((1 + 1) % 2) 0
          = (((okG (abf21eval 1 0)).getD 3 []).getD 0 []).getD 1 0
        ∧ ((((okH (abf21eval 0 1)).getD (3 + 8) []).getD 1 []).getD ((1 + 1) % 2) []).getD
              ((0 + 1) % 2) 0
          = ((((okH (abf21eval 1 0)).getD 3 []).getD 0 []).getD 1 []).getD 0 0) :=
  ⟨⟨by decide, by decide, by decide⟩,
    C8_rotation_symmetry 0 1 3 1 0 (by decide) (by decide) (by decide)⟩
